import Mathlib

/-!
# Verification of the aprsutils APRS packet decoder

A shallow embedding of the Go package `github.com/APRSCN/aprsutils`
(packages `aprsutils` and `aprsutils/parser`) together with proofs about
the claims of its specification.

Embedding conventions:

* Go strings are embedded as `List Nat` of character codes.  All concrete
  inputs used in theorems are ASCII, where Go's byte indexing and rune
  indexing coincide.
* Go `float64` arithmetic is embedded as exact rational (`ℚ`) arithmetic.
  The two PHG fields whose values involve transcendental operations
  (`math.Pow` with fractional exponent, `math.Sqrt`) are stored as values
  of a small symbolic expression type `RVal`, so that every definition
  stays computable and decidably comparable.
* Go run-time panics (out-of-range indexing, assignment to an entry of a
  nil map) are modelled explicitly as a `panic` outcome, and Go `error`
  returns as a `fail` outcome.
* The shared compiled-regexp cache of `regexp.go` is modelled as an
  association list threaded through exactly the functions that call
  `CompiledRegexps.Get`; the regular expressions themselves are embedded
  as bespoke matching functions over `List Nat`, faithful to the RE2
  semantics of the concrete patterns used by the source.
* `strings.TrimSpace` is embedded with the ASCII white-space set (plus
  U+0085/U+00A0); no input considered here contains other Unicode spaces.
-/

namespace Aprs

/-- Convert a Lean string literal to the embedded string representation
(list of character codes). -/
def S (s : String) : List Nat := s.data.map Char.toNat

/-! ## Small string library (embedding of the Go `strings` helpers) -/

/-- `0-9`. -/
def isDigitC (c : Nat) : Bool := 48 ≤ c && c ≤ 57

/-- `A-Z`. -/
def isUpperC (c : Nat) : Bool := 65 ≤ c && c ≤ 90

/-- `a-z`. -/
def isLowerC (c : Nat) : Bool := 97 ≤ c && c ≤ 122

/-- `[A-Za-z0-9]`, the case-insensitive alphanumeric class. -/
def isAlnumC (c : Nat) : Bool := isDigitC c || isUpperC c || isLowerC c

/-- White space as recognized by `strings.TrimSpace` (ASCII part plus
U+0085 and U+00A0). -/
def isSpaceC (c : Nat) : Bool :=
  c == 32 || (9 ≤ c && c ≤ 13) || c == 0x85 || c == 0xa0

/-- Embeds `utils.SplitOnce s sep` for a one-character separator: split at
the first occurrence, `none` when the separator does not occur. -/
def splitOnce (s : List Nat) (sep : Nat) : Option (List Nat × List Nat) :=
  match s with
  | [] => none
  | c :: rest =>
    if c = sep then some ([], rest)
    else match splitOnce rest sep with
      | none => none
      | some (a, b) => some (c :: a, b)

/-- Worker for `splitAll`, accumulating the current segment reversed. -/
def splitAllGo (sep : Nat) : List Nat → List Nat → List (List Nat)
  | [], acc => [acc.reverse]
  | c :: rest, acc =>
    if c = sep then acc.reverse :: splitAllGo sep rest []
    else splitAllGo sep rest (c :: acc)

/-- Embeds `strings.Split s sep` for a one-character separator. -/
def splitAll (s : List Nat) (sep : Nat) : List (List Nat) := splitAllGo sep s []

/-- Embeds `strings.TrimLeft s cutset` for a one-character cut set. -/
def trimLeftC (s : List Nat) (c : Nat) : List Nat := s.dropWhile (· == c)

/-- Embeds `strings.Trim s cutset`: remove any leading and trailing
characters belonging to `cut`. -/
def trimBoth (s : List Nat) (cut : List Nat) : List Nat :=
  ((s.dropWhile (cut.contains ·)).reverse.dropWhile (cut.contains ·)).reverse

/-- Embeds `strings.TrimSpace`. -/
def trimSpace (s : List Nat) : List Nat :=
  ((s.dropWhile (isSpaceC ·)).reverse.dropWhile (isSpaceC ·)).reverse

/-- Embeds `strings.Replace s old new 1` for one-character `old`/`new`:
replace the first occurrence only. -/
def replaceFirst (s : List Nat) (a b : Nat) : List Nat :=
  match s with
  | [] => []
  | c :: rest => if c = a then b :: rest else c :: replaceFirst rest a b

/-- Embeds `strings.ReplaceAll s old new` for one-character `old`/`new`. -/
def replaceAllC (s : List Nat) (a b : Nat) : List Nat :=
  s.map (fun c => if c = a then b else c)

/-- Embeds `strings.Count s sub` for a one-character `sub`. -/
def countC (s : List Nat) (a : Nat) : Nat := s.countP (· == a)

/-- Numeric value of a list of decimal digit codes (helper for `atoi`). -/
def digitsVal (s : List Nat) : Nat := s.foldl (fun acc c => acc * 10 + (c - 48)) 0

/-- Embeds `strconv.Atoi`: optional sign followed by one or more digits;
`none` on any other input. -/
def atoi (s : List Nat) : Option Int :=
  match s with
  | [] => none
  | 43 :: rest =>
    if rest ≠ [] ∧ rest.all (isDigitC ·) then some (digitsVal rest) else none
  | 45 :: rest =>
    if rest ≠ [] ∧ rest.all (isDigitC ·) then some (-(digitsVal rest : Int)) else none
  | _ =>
    if s.all (isDigitC ·) then some (digitsVal s) else none

/-- `strconv.Atoi` with the error discarded (`val, _ :=` in Go yields the
zero value on error). -/
def atoiD (s : List Nat) : Int := (atoi s).getD 0

/-- Embeds the subset of `strconv.ParseFloat` syntax reachable in this
code base: optional sign, decimal digits with at most one decimal point,
at least one digit; exact rational result. -/
def parseFloatQ (s : List Nat) : Option ℚ :=
  let core : List Nat → Option ℚ := fun t =>
    match splitOnce t 46 with
    | none => if t ≠ [] ∧ t.all (isDigitC ·) then some (digitsVal t) else none
    | some (ipart, fpart) =>
      if (ipart ≠ [] ∨ fpart ≠ []) ∧ ipart.all (isDigitC ·) ∧ fpart.all (isDigitC ·) then
        some ((digitsVal ipart : ℚ) + (digitsVal fpart : ℚ) / (10 : ℚ) ^ fpart.length)
      else none
  match s with
  | 43 :: rest => core rest
  | 45 :: rest => (core rest).map (fun q => -q)
  | _ => core s

/-- `strconv.ParseFloat` with the error discarded. -/
def parseFloatD (s : List Nat) : ℚ := (parseFloatQ s).getD 0

/-- Value of a string of lowercase hexadecimal digit codes. -/
def hexVal (s : List Nat) : Nat :=
  s.foldl (fun acc c => acc * 16 + (if c ≤ 57 then c - 48 else c - 87)) 0

/-! ## Base-91 codec (`base91.go`) -/

/-- Positional value of a base-91 digit string, most significant first:
`Σ (char − 33) · 91^(position from the right)` — the accumulation
performed by the loop of `ToDecimal`. -/
def b91val : List Nat → Nat
  | [] => 0
  | c :: rest => (c - 33) * 91 ^ rest.length + b91val rest

/-- Embeds `ToDecimal` (`base91.go`): empty input yields 0; leading `!`
are stripped; any remaining character with code `≤ 0x20` or `≥ 0x7c` is an
error (`none`); otherwise the positional sum. -/
def ToDecimal (text : List Nat) : Option Nat :=
  if text = [] then some 0
  else
    let t := trimLeftC text 33
    if t.all (fun c => decide (0x21 ≤ c) && decide (c < 0x7c)) then some (b91val t)
    else none

/-- Fuel-driven worker for `b91digits`; the fuel only serves structural
recursion and `n` itself is always enough of it. -/
def b91digitsF : Nat → Nat → List Nat
  | 0, _ => []
  | fuel + 1, n => if n = 0 then [] else (n % 91 + 33) :: b91digitsF fuel (n / 91)

/-- Base-91 digits of `n`, least significant first, each offset by 33
(the digit-production loop of `FromDecimal`). -/
def b91digits (n : Nat) : List Nat := b91digitsF n n

/-- Embeds `FromDecimal` (`base91.go`) called with an explicit width:
negative width or number is an error; 0 encodes to `!` repeated
`max 1 w`; otherwise the base-91 digits (most significant first), with
leading `!` trimmed and the result left-padded with `!` to width `w`. -/
def FromDecimal (number : Int) (w : Int) : Option (List Nat) :=
  if w < 0 then none
  else if number < 0 then none
  else if number = 0 then some (List.replicate (max 1 w.toNat) 33)
  else
    let ds := (b91digits number.toNat).reverse
    let t := trimLeftC ds 33
    if t.length < w.toNat then some (List.replicate (w.toNat - t.length) 33 ++ t)
    else some t

/-! ### Base-91 lemmas -/

/-- Value of the digits list read least-significant-first. -/
def b91valL : List Nat → Nat
  | [] => 0
  | c :: rest => (c - 33) + 91 * b91valL rest

/-! ## Clock and timestamp arithmetic (`time` package subset) -/

/-- The injected UTC wall clock (`time.Now().UTC()`): only the year, month
and day components are consumed by the decoder. -/
structure Clock where
  Year : Nat
  Month : Nat
  Day : Nat

/-- Gregorian leap-year predicate. -/
def isLeap (y : Nat) : Bool := (y % 4 == 0 && y % 100 != 0) || y % 400 == 0

/-- Number of days of month `m` of year `y`. -/
def daysInMonth (y m : Nat) : Nat :=
  if m = 2 then (if isLeap y then 29 else 28)
  else if m = 4 ∨ m = 6 ∨ m = 9 ∨ m = 11 then 30 else 31

/-- Days from the Unix epoch to the civil date `y-m-d` (standard
days-from-civil algorithm); only used with years `≥ 1000`, where all
intermediate quantities are non-negative. -/
def daysFromCivil (y m d : Nat) : Int :=
  let y1 : Int := if m ≤ 2 then (y : Int) - 1 else (y : Int)
  let era : Int := y1 / 400
  let yoe : Int := y1 - era * 400
  let mp : Int := ((m : Int) + 9) % 12
  let doy : Int := (153 * mp + 2) / 5 + (d : Int) - 1
  let doe : Int := yoe * 365 + yoe / 4 - yoe / 100 + doy
  era * 146097 + doe - 719468

/-- Unix epoch seconds of the UTC instant `y-m-d h:mi:s`. -/
def epochOf (y mo d h mi s : Nat) : Int :=
  daysFromCivil y mo d * 86400 + (h : Int) * 3600 + (mi : Int) * 60 + (s : Int)

/-- Embeds `parseTimeString` (`time.Parse` with layout `20060102150405`
followed by `.Unix()`), at the level of the six numeric components cut
from the 14-digit string: `none` when any component is out of range (the
year must render as exactly four digits for the layout to apply). -/
def parseTimeString14 (y mo d h mi s : Nat) : Option Int :=
  if 1000 ≤ y ∧ y ≤ 9999 ∧ 1 ≤ mo ∧ mo ≤ 12 ∧ 1 ≤ d ∧ d ≤ daysInMonth y mo ∧
      h ≤ 23 ∧ mi ≤ 59 ∧ s ≤ 59
  then some (epochOf y mo d h mi s)
  else none

/-! ## Symbolic real values

The two PHG fields computed with `math.Pow` at a fractional exponent and
`math.Sqrt` cannot be represented exactly in `ℚ`; they are stored as
symbolic expression trees so every definition stays computable. -/

/-- Symbolic real value: rational literal, real power, square root,
product. -/
inductive RVal where
  | ofRat : ℚ → RVal
  | powR : ℚ → ℚ → RVal
  | sqrtR : RVal → RVal
  | mulR : RVal → RVal → RVal
deriving DecidableEq

/-- Embeds the `TelemetryData` struct of the parser package. -/
structure TelemetryData where
  Seq : Nat := 0
  Vals : List Nat := []
  Bits : List Nat := []
deriving DecidableEq

/-- Modelled from the spec: the `Parsed` output record of the parser
package (its struct declaration is not among the provided sources; field
names and types follow the spec's data model and every assignment
performed by the provided code).  `SubPacket` is split off into the
`Parsed` wrapper below because Lean structures cannot be recursive; the
Go `Type` field is spelled `Typ`.  The `Weather` field embeds the Go
`map[string]float64`: `none` is the nil map (never initialized anywhere
in the provided code), and writing to it is a run-time panic. -/
structure Core where
  Raw : List Nat := []
  From : List Nat := []
  To : List Nat := []
  Path : List (List Nat) := []
  Format : List Nat := []
  Body : List Nat := []
  ID : List Nat := []
  Typ : List Nat := []
  Status : List Nat := []
  MessageCapable : Bool := false
  ObjectName : List Nat := []
  Alive : Bool := false
  ObjectFormat : List Nat := []
  RawTimestamp : List Nat := []
  Timestamp : Int := 0
  Symbol : List (List Nat) := []
  Lat : ℚ := 0
  Lon : ℚ := 0
  PosAmbiguity : Nat := 0
  Course : ℚ := 0
  Speed : ℚ := 0
  Altitude : ℚ := 0
  GPSFixStatus : Bool := false
  RadioRange : ℚ := 0
  Bearing : Int := 0
  NRQ : Int := 0
  PHG : List Nat := []
  PHGPower : ℚ := 0
  PHGHeight : ℚ := 0
  PHGGain : RVal := .ofRat 0
  PHGDir : List Nat := []
  PHGRange : RVal := .ofRat 0
  PHGRate : Int := 0
  RNG : ℚ := 0
  DAODatumByte : List Nat := []
  Comment : List Nat := []
  MBits : List Nat := []
  MType : List Nat := []
  TelemetryMicE : List Nat := []
  Telemetry : TelemetryData := {}
  TPARM : List (List Nat) := []
  TUNIT : List (List Nat) := []
  TEQNS : List (List ℚ) := []
  TBITS : List Nat := []
  Title : List Nat := []
  Addressee : List Nat := []
  MessageText : List Nat := []
  BID : List Nat := []
  AID : List Nat := []
  Identifier : List Nat := []
  Response : List Nat := []
  MsgNo : List Nat := []
  AckMsgNo : List Nat := []
  Weather : Option (List (List Nat × ℚ)) := none

/-- The full decoded record: the flat field set plus the optional
recursive `SubPacket` set by the third-party decoder. -/
inductive Parsed where
  | mk : Core → Option Parsed → Parsed

/-- Flat fields of a `Parsed`. -/
def Parsed.core : Parsed → Core
  | .mk c _ => c

/-- The nested third-party sub-packet of a `Parsed`. -/
def Parsed.subPacket : Parsed → Option Parsed
  | .mk _ s => s

/-- Outcome of a `Parse`/`parseBody` call: the record together with the
`error` return (`none` on success), a run-time panic, or recursion fuel
exhaustion (an artifact of the embedding, never reached at adequate
fuel). -/
inductive PRes where
  | done : Parsed → Option String → PRes
  | panicked : String → PRes
  | outOfFuel : PRes

/-- Outcome of an intermediate stage mutating the record and returning a
value of type `α` plus an `error`. -/
inductive Out (α : Type) where
  | ok : Core → α → Out α
  | fail : Core → String → Out α
  | panicked : String → Out α

/-! ## The compiled-regexp cache (`regexp.go`)

A compiled pattern is represented by the pattern text itself; the cache
maps pattern text to the stored compiled entry.  The executor `reRun`
interprets the *stored* entry, so a hypothetical corrupted cache entry
would change behavior — well-formedness (`WFCache`) says every stored
entry is the compilation of its key. -/

/-- The shared compiled-pattern store (`compiledRegexp.r`). -/
abbrev Cache := List (String × String)

/-- Association-list lookup. -/
def cacheLookup : Cache → String → Option String
  | [], _ => none
  | (k, v) :: rest, key => if k = key then some v else cacheLookup rest key

/-- Embeds `compiledRegexp.Get`: return the cached compilation if
present, otherwise compile (identity on the pattern text) and store. -/
def Get (c : Cache) (k : String) : String × Cache :=
  match cacheLookup c k with
  | some v => (v, c)
  | none => (k, (k, k) :: c)

/-- Cache well-formedness: every stored entry is the compilation of its
key. -/
def WFCache (c : Cache) : Prop := ∀ kv ∈ c, kv.2 = kv.1

instance : DecidablePred WFCache := fun c =>
  inferInstanceAs (Decidable (∀ kv ∈ c, kv.2 = kv.1))

/-! ## The regular expressions reached through the cache

Each Go pattern is embedded as a bespoke matcher over `List Nat`,
faithful to RE2 semantics for the concrete pattern (`.` does not match a
newline, `$` is end of text, alternatives are keyed deterministically). -/

/-- `s[i:i+n]` segment helper. -/
def seg {α : Type} (s : List α) (i n : Nat) : List α := (s.drop i).take n

/-- `[0-9\s]` (RE2 `\s` is tab/newline/formfeed/carriage-return/space). -/
def isDigitWs (c : Nat) : Bool :=
  isDigitC c || c == 9 || c == 10 || c == 12 || c == 13 || c == 32

/-- `[0-9 ]`. -/
def isDigitSp (c : Nat) : Bool := isDigitC c || c == 32

/-- `[\/\\0-9A-Z]`, the symbol-table character class. -/
def isSymTableC (c : Nat) : Bool := c == 47 || c == 92 || isDigitC c || isUpperC c

/-- Pattern text of the sender-callsign grammar (`parseHeader`). -/
def patFromCall : String := "(?i)^[a-z0-9]\x7b0,9\x7d(-[a-z0-9]\x7b1,8\x7d)?$"

/-- Pattern text of the path-element grammar (`parseHeader`). -/
def patPathElem : String := "(?i)^[A-Z0-9\\-]\x7b1,9\x7d\\*?$"

/-- Pattern text of the object-report prefix (`parsePosition`). -/
def patObjHead : String := "^([ -~]\x7b9\x7d)(\\*|_)"

/-- Pattern text of the coarse uncompressed-position pre-check
(`parsePosition`). -/
def patCoarse : String :=
  "^[0-9\\s]\x7b4\x7d\\.[0-9\\s]\x7b2\x7d[NS].[0-9\\s]\x7b5\x7d\\.[0-9\\s]\x7b2\x7d[EW]"

/-- Pattern text of the timestamp field (`parseTimeStamp`). -/
def patTs : String := "^((\\d\x7b6\x7d)(.))$"

/-- Pattern text of the full uncompressed-position grammar
(`parseNormal`). -/
def patNormal : String :=
  "^(\\d\x7b2\x7d)([0-9 ]\x7b2\x7d\\.[0-9 ]\x7b2\x7d)([NnSs])([\\/\\\\0-9A-Z])" ++
  "(\\d\x7b3\x7d)([0-9 ]\x7b2\x7d\\.[0-9 ]\x7b2\x7d)([EeWw])([\\x21-\\x7e])(.*)$"

/-- Matcher of `patFromCall`: up to nine case-insensitive alphanumerics,
optionally followed by `-` and one to eight alphanumerics. -/
def matchFromCall (s : List Nat) : Bool :=
  let pre := s.takeWhile (isAlnumC ·)
  let rest := s.dropWhile (isAlnumC ·)
  decide (pre.length ≤ 9) &&
    (match rest with
     | [] => true
     | 45 :: tail => !tail.isEmpty && decide (tail.length ≤ 8) && tail.all (isAlnumC ·)
     | _ => false)

/-- Matcher of `patPathElem`: one to nine alphanumerics or hyphens,
optionally followed by a final `*`. -/
def matchPathElem (s : List Nat) : Bool :=
  let core := if s.getLast? = some 42 then s.dropLast else s
  decide (1 ≤ core.length) && decide (core.length ≤ 9) &&
    core.all (fun c => isAlnumC c || c == 45)

/-- Matcher of `patObjHead`: nine printable characters followed by `*` or
`_`; returns the submatch list on success. -/
def matchObjHead (s : List Nat) : Option (List (List Nat)) :=
  let name := seg s 0 9
  let flag := s.getD 9 0
  if 10 ≤ s.length ∧ name.all (fun c => 32 ≤ c && c ≤ 126) ∧ (flag = 42 ∨ flag = 95)
  then some [name ++ [flag], name, [flag]]
  else none

/-- Matcher of `patCoarse`. -/
def matchCoarse (s : List Nat) : Bool :=
  decide (18 ≤ s.length) &&
  (seg s 0 4).all isDigitWs && (s.getD 4 0 == 46) &&
  (seg s 5 2).all isDigitWs && (s.getD 7 0 == 78 || s.getD 7 0 == 83) &&
  (s.getD 8 0 != 10) &&
  (seg s 9 5).all isDigitWs && (s.getD 14 0 == 46) &&
  (seg s 15 2).all isDigitWs && (s.getD 17 0 == 69 || s.getD 17 0 == 87)

/-- Matcher of `patTs` (applied by the source to exactly the first seven
characters of the body): six digits and one arbitrary non-newline
character. -/
def matchTs (s : List Nat) : Option (List (List Nat)) :=
  if s.length = 7 ∧ (s.take 6).all (isDigitC ·) ∧ s.getD 6 0 ≠ 10
  then some [s, s, s.take 6, [s.getD 6 0]]
  else none

/-- Matcher of `patNormal`; returns the ten submatch groups on success. -/
def matchNormal (s : List Nat) : Option (List (List Nat)) :=
  if 19 ≤ s.length
    ∧ (seg s 0 2).all (isDigitC ·)
    ∧ (seg s 2 2).all isDigitSp ∧ s.getD 4 0 = 46 ∧ (seg s 5 2).all isDigitSp
    ∧ (s.getD 7 0 = 78 ∨ s.getD 7 0 = 110 ∨ s.getD 7 0 = 83 ∨ s.getD 7 0 = 115)
    ∧ isSymTableC (s.getD 8 0)
    ∧ (seg s 9 3).all (isDigitC ·)
    ∧ (seg s 12 2).all isDigitSp ∧ s.getD 14 0 = 46 ∧ (seg s 15 2).all isDigitSp
    ∧ (s.getD 17 0 = 69 ∨ s.getD 17 0 = 101 ∨ s.getD 17 0 = 87 ∨ s.getD 17 0 = 119)
    ∧ (33 ≤ s.getD 18 0 ∧ s.getD 18 0 ≤ 126)
    ∧ (s.drop 19).all (fun c => c ≠ 10)
  then some [s, seg s 0 2, seg s 2 5, [s.getD 7 0], [s.getD 8 0], seg s 9 3,
             seg s 12 5, [s.getD 17 0], [s.getD 18 0], s.drop 19]
  else none

/-- Execution of a compiled pattern: dispatch on the stored pattern text.
Boolean-only patterns report a dummy single-group list. -/
def reRun (pat : String) (s : List Nat) : Option (List (List Nat)) :=
  if pat = patFromCall then (if matchFromCall s then some [s] else none)
  else if pat = patPathElem then (if matchPathElem s then some [s] else none)
  else if pat = patObjHead then matchObjHead s
  else if pat = patCoarse then (if matchCoarse s then some [s] else none)
  else if pat = patTs then matchTs s
  else if pat = patNormal then matchNormal s
  else none

/-- Fetch a compiled pattern through the cache and run it: the
`CompiledRegexps.Get(..).FindStringSubmatch/MatchString` idiom used at
every cached call site. -/
def runCached (c : Cache) (k : String) (s : List Nat) :
    Option (List (List Nat)) × Cache :=
  let g := Get c k
  (reRun g.1 s, g.2)

/-- Embeds `ValidateCallsign` (`callsign.go`,
`^([A-Z0-9]{1,6})(-(\d{1,2}))?$`, case-sensitive). -/
def ValidateCallsign (s : List Nat) : Bool :=
  let pre := s.takeWhile (fun c => isUpperC c || isDigitC c)
  let rest := s.dropWhile (fun c => isUpperC c || isDigitC c)
  decide (1 ≤ pre.length) && decide (pre.length ≤ 6) &&
    (match rest with
     | [] => true
     | 45 :: tail => !tail.isEmpty && decide (tail.length ≤ 2) && tail.all (isDigitC ·)
     | _ => false)

/-! ## Assorted helpers shared by the sub-decoders -/

/-- `strings.TrimRight s cutset` for a one-character cut set. -/
def trimRightC (s : List Nat) (c : Nat) : List Nat :=
  (s.reverse.dropWhile (· == c)).reverse

/-- Decimal rendering of a natural number (`strconv.Itoa` for
non-negative values), driven by structural fuel. -/
def itoaF : Nat → Nat → List Nat
  | 0, _ => []
  | f + 1, n => if n < 10 then [48 + n] else itoaF f (n / 10) ++ [48 + n % 10]

/-- `strconv.Itoa` on a natural number. -/
def itoa (n : Nat) : List Nat := itoaF (n + 1) n

/-- Go `isDigit` helper of the parser package: every character is a
decimal digit (vacuously true on the empty string). -/
def isDigitStr (s : List Nat) : Bool := s.all (isDigitC ·)

/-- Two's-complement `x & m` for a mask `m < 128`, as computed by Go on
`int` values (only the low bits of `x` matter). -/
def maskAnd (x : Int) (m : Nat) : Nat :=
  let low := (x.emod 128).toNat
  (List.range 7).foldl
    (fun acc i => acc + (if low / 2 ^ i % 2 = 1 ∧ m / 2 ^ i % 2 = 1 then 2 ^ i else 0)) 0

/-- ASCII upper-casing of one character (`strings.ToUpper` on a
one-character string). -/
def toUpperC (c : Nat) : Nat := if isLowerC c then c - 32 else c

/-- Association-list update used to embed Go map assignment: replace an
existing key or append. -/
def assocSet (m : List (List Nat × ℚ)) (k : List Nat) (v : ℚ) : List (List Nat × ℚ) :=
  match m with
  | [] => [(k, v)]
  | (k1, v1) :: rest => if k1 = k then (k, v) :: rest else (k1, v1) :: assocSet rest k v

/-- Association-list lookup with a default (Go map read returns the zero
value for a missing key). -/
def assocGetD (m : List (List Nat × List Nat)) (k : List Nat) : List Nat :=
  match m with
  | [] => []
  | (k1, v1) :: rest => if k1 = k then v1 else assocGetD rest k

/-- Embeds `strings.Contains hay sub` (substring test). -/
def isInfixL (sub : List Nat) : List Nat → Bool
  | [] => sub.isEmpty
  | c :: t => sub.isPrefixOf (c :: t) || isInfixL sub t

/-- Lowercase hexadecimal digit class `[0-9a-f]`. -/
def isLowerHex (c : Nat) : Bool := isDigitC c || (97 ≤ c && c ≤ 102)

/-- Embeds `strconv.ParseInt(s, 16, 64)` for the lowercase-hex strings fed
to it by the Mic-E telemetry decoder. -/
def parseHexInt (s : List Nat) : Option Nat :=
  if s ≠ [] ∧ s.all (isLowerHex ·) ∧ s.length ≤ 15 then some (hexVal s) else none

/-! ## Trivial sub-decoders (`invalid.go` material, src/unnamed/part_004) -/

/-- Embeds `parseInvalid`. -/
def parseInvalid (p : Core) (body : List Nat) : Core :=
  { p with Format := S "invalid", Body := body }

/-- Embeds `parseUserDefined`: reads the first **two** runes of the body
unconditionally, so a one-rune body is an out-of-range index — modelled
by `none` (run-time panic). -/
def parseUserDefined (p : Core) (body : List Nat) : Option Core :=
  match body with
  | c0 :: c1 :: rest =>
    some { p with Format := S "user-defined", ID := [c0], Typ := [c1], Body := rest }
  | _ => none

/-- Embeds `parseStatus`. -/
def parseStatus (p : Core) (body : List Nat) : Core :=
  { p with Format := S "status", Status := trimBoth body [32] }

/-! ## Comment-telemetry decoder (src/unnamed/part_002) -/

/-- Match of `\|([!-{]{4,14})\|(.*)$` at the head of `s`: a `|`, a run of
4–14 characters in `[0x21,0x7b]`, another `|`, and a newline-free
remainder. -/
def tryTelHere (s : List Nat) : Option (List Nat × List Nat) :=
  match s with
  | 124 :: rest =>
    let tel := rest.takeWhile (fun c => 33 ≤ c && c ≤ 123)
    let r := tel.length
    if 4 ≤ r ∧ r ≤ 14 ∧ rest.getD r 0 = 124 ∧ (rest.drop (r + 1)).all (· ≠ 10)
    then some (tel, rest.drop (r + 1))
    else none
  | _ => none

/-- Leftmost match of `^(.*?)\|([!-{]{4,14})\|(.*)$` (the lazy prefix may
not contain a newline): returns prefix, telemetry block, and suffix. -/
def findTel : List Nat → Option (List Nat × List Nat × List Nat)
  | [] => none
  | c :: rest =>
    match tryTelHere (c :: rest) with
    | some (tel, post) => some ([], tel, post)
    | none =>
      if c = 10 then none
      else
        match findTel rest with
        | some (pre, tel, post) => some (c :: pre, tel, post)
        | none => none

/-- LSB-first 8-character binary rendering of `bits & 0xFF`
(the loop building `binaryStr`). -/
def bits8 (n : Nat) : List Nat :=
  (List.range 8).map (fun i => if n / 2 ^ i % 2 = 1 then 49 else 48)

/-- Embeds `parseCommentTelemetry`: extract an even-length `|..|` block,
decode up to seven base-91 pairs into sequence number, five values and an
optional bits byte, and splice the block out of the text. -/
def parseCommentTelemetry (p : Core) (text : List Nat) : Core × List Nat :=
  match findTel text with
  | none => (p, text)
  | some (pre, tel, post) =>
    if tel.length % 2 = 0 then
      let temp := (List.range 7).map (fun i =>
        if i * 2 + 2 ≤ tel.length then (ToDecimal (seg tel (i * 2) 2)).getD 0 else 0)
      let bitsVal := temp.getD 6 0
      let td : TelemetryData :=
        { Seq := temp.getD 0 0
          Vals := seg temp 1 5
          Bits := if bitsVal ≠ 0 then bits8 (bitsVal % 256) else [] }
      ({ p with Telemetry := td }, pre ++ post)
    else (p, text)

/-! ## Telemetry-definition decoder (src/unnamed/part_002) -/

/-- Matcher of `^[-]?\d*\.?\d+$` (the EQNS coefficient grammar). -/
def matchEqnNum (s : List Nat) : Bool :=
  let t := match s with | 45 :: r => r | _ => s
  match splitOnce t 46 with
  | none => !t.isEmpty && t.all (isDigitC ·)
  | some (a, b) => a.all (isDigitC ·) && !b.isEmpty && b.all (isDigitC ·)

/-- The EQNS coefficient value: `Atoi` first, then `ParseFloat`, defaulting
to 0 (`teqns[idx]` assignment). -/
def eqnVal (s : List Nat) : ℚ :=
  match atoi s with
  | some n => (n : ℚ)
  | none =>
    match parseFloatQ s with
    | none => 0
    | some v => v

/-- The indexed EQNS assignment loop; errors abort with the offending
1-based index. -/
def eqnsLoop : List (Nat × List Nat) → List ℚ → Except String (List ℚ)
  | [], acc => .ok acc
  | (idx, val) :: rest, acc =>
    if val = [] then eqnsLoop rest acc
    else if ¬ matchEqnNum val then
      .error ("value at " ++ toString (idx + 1) ++ " is not a number in EQNS")
    else eqnsLoop rest (acc.set idx (eqnVal val))

/-- Embeds `parseTelemetryConfig`: recognize `PARM.`/`UNIT.`/`EQNS.`/
`BITS.` bodies and populate the telemetry definitions; returns the
(shadowed) remainder and the error exactly as the Go function does — its
caller discards both. -/
def parseTelemetryConfig (p : Core) (body : List Nat) :
    Core × List Nat × Option String :=
  let tryForm : Option (List Nat × List Nat) :=
    if seg body 0 5 = S "PARM." then some (S "PARM", body.drop 5)
    else if seg body 0 5 = S "UNIT." then some (S "UNIT", body.drop 5)
    else if seg body 0 5 = S "EQNS." then some (S "EQNS", body.drop 5)
    else if seg body 0 5 = S "BITS." then some (S "BITS", body.drop 5)
    else none
  match tryForm with
  | none => (p, body, none)
  | some (form, rest) =>
    if ¬ rest.all (· ≠ 10) then (p, body, none)
    else
      let p1 := { p with Format := S "telemetry-message" }
      if form = S "PARM" ∨ form = S "UNIT" then
        let vals := (splitAll (trimRightC rest 32) 44).take 13
        if vals.any (fun v => 20 < v.length) then
          (p1, rest, some ("incorrect format of " ++
            (if form = S "PARM" then "PARM" else "UNIT") ++ " (name too long?)"))
        else
          let defvals := vals ++ List.replicate (13 - vals.length) []
          if form = S "PARM" then ({ p1 with TPARM := defvals }, body, none)
          else ({ p1 with TUNIT := defvals }, body, none)
      else if form = S "EQNS" then
        let eqns := (splitAll (trimRightC rest 32) 44).take 15
        let teqns0 := (List.range 15).map (fun i => if i % 3 = 1 then (1 : ℚ) else 0)
        match eqnsLoop eqns.enum teqns0 with
        | .error e => (p1, rest, some e)
        | .ok teqns =>
          let grouped := (List.range 5).map (fun i => seg teqns (i * 3) 3)
          ({ p1 with TEQNS := grouped }, body, none)
      else
        let t := trimRightC rest 32
        if 9 ≤ t.length ∧ t.length ≤ 32 ∧ (t.take 8).all (fun c => c == 48 || c == 49) ∧
            t.getD 8 0 = 44 ∧ (t.drop 9).all (· ≠ 10) then
          ({ p1 with TBITS := t.take 8, Title := trimBoth (t.drop 9) [32] }, body, none)
        else (p1, rest, some "incorrect format of BITS (title too long?)")

/-! ## Comment and data-extension decoders (`parser` comment utilities) -/

/-- `[0-9 \.]`, the course/speed/bearing/NRQ character class. -/
def isCseCls (c : Nat) : Bool := isDigitC c || c == 32 || c == 46

/-- One hexadecimal digit `[0-9A-F]` as parsed by
`strconv.ParseInt(.,16,64)`, or `none` (the G–Z letters admitted by the
PHG rate class make `ParseInt` fail, and the error is discarded). -/
def hexDigit (c : Nat) : Option Nat :=
  if isDigitC c then some (c - 48)
  else if 65 ≤ c ∧ c ≤ 70 then some (c - 55)
  else none

/-- Embeds `parseDataExtensions`: course/speed (with optional DF
bearing/NRQ continuation), or PHG (with optional rate), or RNG; the
matched prefix is consumed. -/
def parseDataExtensions (p : Core) (body : List Nat) : Core × List Nat :=
  if 7 ≤ body.length ∧ (seg body 0 3).all (isCseCls ·) ∧ body.getD 3 0 = 47 ∧
      (seg body 4 3).all (isCseCls ·) then
    let cse := seg body 0 3
    let spd := seg body 4 3
    let body1 := body.drop 7
    let p1 :=
      if isDigitStr cse ∧ cse ≠ S "000" then
        let cseInt := digitsVal cse
        if 1 ≤ cseInt ∧ cseInt ≤ 360 then { p with Course := (cseInt : ℚ) }
        else { p with Course := 0 }
      else p
    let p2 :=
      if isDigitStr spd ∧ spd ≠ S "000" then
        { p1 with Speed := (digitsVal spd : ℚ) * (1852 / 1000) }
      else p1
    if 8 ≤ body1.length ∧ body1.getD 0 0 = 47 ∧ (seg body1 1 3).all (isCseCls ·) ∧
        body1.getD 4 0 = 47 ∧ (seg body1 5 3).all (isCseCls ·) then
      let p3 := if cse = S "000" then { p2 with Course := 0 } else p2
      let brg := seg body1 1 3
      let nrq := seg body1 5 3
      let p4 := if isDigitStr brg then { p3 with Bearing := (digitsVal brg : Int) } else p3
      let p5 := if isDigitStr nrq then { p4 with NRQ := (digitsVal nrq : Int) } else p4
      (p5, body1.drop 8)
    else (p2, body1)
  else if seg body 0 3 = S "PHG" ∧ 7 ≤ body.length ∧ isDigitC (body.getD 3 0) ∧
      48 ≤ body.getD 4 0 ∧ body.getD 4 0 ≤ 126 ∧ isDigitC (body.getD 5 0) ∧
      isDigitC (body.getD 6 0) then
    let phg := seg body 3 4
    let hasRate := 9 ≤ body.length ∧ (isDigitC (body.getD 7 0) ∨ isUpperC (body.getD 7 0)) ∧
      body.getD 8 0 = 47
    let extLen := if hasRate then 9 else 7
    let power := body.getD 3 0 - 48
    let phgPower : ℚ := (power : ℚ) ^ 2
    let height : ℚ := 10 * 2 ^ (body.getD 4 0 - 48) * (3048 / 10000)
    let gain := body.getD 5 0 - 48
    let phgGain : RVal := .powR 10 ((gain : ℚ) / 10)
    let phgDir := body.getD 6 0 - 48
    let direction :=
      if phgDir = 0 then S "omni"
      else if phgDir = 9 then S "invalid"
      else itoa (45 * phgDir)
    let phgRange : RVal :=
      .mulR
        (.sqrtR (.mulR (.ofRat (2 * (height / (3048 / 10000))))
          (.sqrtR (.mulR (.ofRat (phgPower / 10))
            (.mulR phgGain (.ofRat (1 / 2)))))))
        (.ofRat (160934 / 100000))
    let p1 := { p with
      PHG := phg, PHGPower := phgPower, PHGHeight := height, PHGGain := phgGain,
      PHGDir := direction, PHGRange := phgRange }
    let phgr := body.getD 7 0
    let rate : Int := ((hexDigit phgr).getD 0 : Int)
    let p2 :=
      if hasRate then { p1 with PHG := phg ++ [phgr], PHGRate := rate }
      else p1
    (p2, body.drop extLen)
  else if seg body 0 3 = S "RNG" ∧ 7 ≤ body.length ∧ (seg body 3 4).all (isDigitC ·) then
    ({ p with RNG := (digitsVal (seg body 3 4) : ℚ) * (1609344 / 1000000) }, body.drop 7)
  else (p, body)

/-- Match of `/A=(\-\d{5}|\d{6})(.*)$` at the head of `s`, with the
newline-free tail condition of the trailing `(.*)$`. -/
def tryAltHere (s : List Nat) : Option (Int × List Nat) :=
  match s with
  | 47 :: 65 :: 61 :: rest =>
    (match rest with
     | 45 :: ds =>
       if 5 ≤ ds.length ∧ (ds.take 5).all (isDigitC ·) ∧ (ds.drop 5).all (· ≠ 10)
       then some (-(digitsVal (ds.take 5) : Int), ds.drop 5)
       else none
     | ds =>
       if 6 ≤ ds.length ∧ (ds.take 6).all (isDigitC ·) ∧ (ds.drop 6).all (· ≠ 10)
       then some ((digitsVal (ds.take 6) : Int), ds.drop 6)
       else none)
  | _ => none

/-- Leftmost match of `^(.*?)/A=(\-\d{5}|\d{6})(.*)$` (lazy newline-free
prefix). -/
def findAlt : List Nat → Option (List Nat × Int × List Nat)
  | [] => none
  | c :: rest =>
    match tryAltHere (c :: rest) with
    | some (alt, after) => some ([], alt, after)
    | none =>
      if c = 10 then none
      else
        match findAlt rest with
        | some (pre, alt, after) => some (c :: pre, alt, after)
        | none => none

/-- Embeds `parseCommentAltitude`: cut the first `/A=±DDDDD(D)` tag out of
the comment and store the altitude in meters. -/
def parseCommentAltitude (p : Core) (body : List Nat) : Core × List Nat :=
  match findAlt body with
  | none => (p, body)
  | some (pre, alt, after) =>
    ({ p with Altitude := (alt : ℚ) * (3048 / 10000) }, pre ++ after)

/-- Match of `\!([\x21-{])([\x20-{]{2})\!(.*?)$` at the head of `s`
(the trailing lazy group still may not contain a newline). -/
def tryDAOHere (s : List Nat) : Option (Nat × List Nat × List Nat) :=
  match s with
  | 33 :: d1 :: d2 :: d3 :: 33 :: rest =>
    if 33 ≤ d1 ∧ d1 ≤ 123 ∧ 32 ≤ d2 ∧ d2 ≤ 123 ∧ 32 ≤ d3 ∧ d3 ≤ 123 ∧
        rest.all (· ≠ 10)
    then some (d1, [d2, d3], rest)
    else none
  | _ => none

/-- Rightmost match of `^(.*)\!([\x21-{])([\x20-{]{2})\!(.*?)$` (the
greedy newline-free prefix prefers the last DAO tag). -/
def findDAO : List Nat → Option (List Nat × Nat × List Nat × List Nat)
  | [] => none
  | c :: rest =>
    let later :=
      if c = 10 then none
      else
        match findDAO rest with
        | some (pre, db, dao, after) => some (c :: pre, db, dao, after)
        | none => none
    match later with
    | some r => some r
    | none =>
      match tryDAOHere (c :: rest) with
      | some (db, dao, after) => some ([], db, dao, after)
      | none => none

/-- Embeds `parseDAO`: cut the last `!xyz!` DAO tag out of the comment,
record the datum byte, and refine latitude/longitude away from zero. -/
def parseDAO (p : Core) (body : List Nat) : Core × List Nat :=
  match findDAO body with
  | none => (p, body)
  | some (pre, db, dao, after) =>
    let p1 := { p with DAODatumByte := [toUpperC db] }
    let offsets : ℚ × ℚ :=
      if db = 87 ∧ isDigitStr dao then
        ((dao.getD 0 0 - 48 : ℚ) * (1 / 1000) / 60,
         (dao.getD 1 0 - 48 : ℚ) * (1 / 1000) / 60)
      else if db = 119 ∧ ¬ dao.contains 32 then
        ((((ToDecimal [dao.getD 0 0]).getD 0 : ℚ) / 91) * (1 / 100) / 60,
         (((ToDecimal [dao.getD 1 0]).getD 0 : ℚ) / 91) * (1 / 100) / 60)
      else (0, 0)
    let p2 := { p1 with
      Lat := if 0 ≤ p1.Lat then p1.Lat + offsets.1 else p1.Lat - offsets.1 }
    let p3 := { p2 with
      Lon := if 0 ≤ p2.Lon then p2.Lon + offsets.2 else p2.Lon - offsets.2 }
    (p3, pre ++ after)

/-- Embeds `parseComment`: data extensions, then altitude tag, then
embedded telemetry, then DAO tag, then an optional leading `/`, then
space-trimming into the comment field. -/
def parseComment (p : Core) (body : List Nat) : Core × List Nat :=
  let de := parseDataExtensions p body
  let ca := parseCommentAltitude de.1 de.2
  let ct := parseCommentTelemetry ca.1 ca.2
  let dao := parseDAO ct.1 ct.2
  let b5 := match dao.2 with
    | 47 :: tail => tail
    | _ => dao.2
  ({ dao.1 with Comment := trimBoth b5 [32] }, b5)

/-! ## Weather decoder (`parser/weather.go`) -/

/-- The key letters of the first token alternative
`[cSgtrpPlLs#]`. -/
def wxKeys1 : List Nat := [99, 83, 103, 116, 114, 112, 80, 108, 76, 115, 35]

/-- `[0-9\-. ]`, the 3-character token value class. -/
def isWx3 (c : Nat) : Bool := isDigitC c || c == 45 || c == 46 || c == 32

/-- `[0-9. ]`, the `h`/`b` token value class. -/
def isWxHB (c : Nat) : Bool := isDigitC c || c == 46 || c == 32

/-- Length of the token of
`([cSgtrpPlLs#][0-9\-. ]{3}|h[0-9. ]{2}|b[0-9. ]{5})` matching at the
head of `s`, if any. -/
def wxTokenLen (s : List Nat) : Option Nat :=
  match s with
  | [] => none
  | c :: rest =>
    if wxKeys1.contains c then
      (if 3 ≤ rest.length ∧ (rest.take 3).all (isWx3 ·) then some 4 else none)
    else if c = 104 then
      (if 2 ≤ rest.length ∧ (rest.take 2).all (isWxHB ·) then some 3 else none)
    else if c = 98 then
      (if 5 ≤ rest.length ∧ (rest.take 5).all (isWxHB ·) then some 6 else none)
    else none

/-- Greedy anchored munch of `^(token)+` (the `re2` scan), fuel-driven;
returns the matched data and the remainder. -/
def wxMunch : Nat → List Nat → List Nat × List Nat
  | 0, s => ([], s)
  | f + 1, s =>
    match wxTokenLen s with
    | none => ([], s)
    | some k =>
      let (d, r) := wxMunch f (s.drop k)
      (s.take k ++ d, r)

/-- Length of the `re3` token alternative matching at the head of `s`:
`[cSgtrpPlLs#]\d{3}`, `t-\d{2}`, `h\d{2}`, `b\d{5}`, `s\.\d{2}` or
`s\d\.\d`, tried in pattern order. -/
def wxTok3 (s : List Nat) : Option Nat :=
  match s with
  | [] => none
  | c :: rest =>
    if wxKeys1.contains c ∧ 3 ≤ rest.length ∧ (rest.take 3).all (isDigitC ·) then some 4
    else if c = 116 ∧ rest.getD 0 0 = 45 ∧ 3 ≤ rest.length ∧
        (seg rest 1 2).all (isDigitC ·) then some 4
    else if c = 104 ∧ 2 ≤ rest.length ∧ (rest.take 2).all (isDigitC ·) then some 3
    else if c = 98 ∧ 5 ≤ rest.length ∧ (rest.take 5).all (isDigitC ·) then some 6
    else if c = 115 ∧ rest.getD 0 0 = 46 ∧ 3 ≤ rest.length ∧
        (seg rest 1 2).all (isDigitC ·) then some 4
    else if c = 115 ∧ 3 ≤ rest.length ∧ isDigitC (rest.getD 0 0) ∧
        rest.getD 1 0 = 46 ∧ isDigitC (rest.getD 2 0) then some 4
    else none

/-- Unanchored successive leftmost `re3` token scan
(`FindAllString`), fuel-driven. -/
def wxFindTokens : Nat → List Nat → List (List Nat)
  | 0, _ => []
  | f + 1, s =>
    match s with
    | [] => []
    | _ :: rest =>
      match wxTok3 s with
      | some k => s.take k :: wxFindTokens f (s.drop k)
      | none => wxFindTokens f rest

/-- The weather key table (`keyMap`). -/
def wxKeyName (k : Nat) : Option (List Nat) :=
  if k = 103 then some (S "windGust")
  else if k = 99 then some (S "windDirection")
  else if k = 116 then some (S "temperature")
  else if k = 83 then some (S "windSpeed")
  else if k = 114 then some (S "rain1h")
  else if k = 112 then some (S "rain24h")
  else if k = 80 then some (S "rainSinceMidnight")
  else if k = 104 then some (S "humidity")
  else if k = 98 then some (S "pressure")
  else if k = 108 then some (S "luminosity")
  else if k = 76 then some (S "luminosity")
  else if k = 115 then some (S "snow")
  else if k = 35 then some (S "rainRaw")
  else none

/-- The per-key conversion table (`valMap`), as exact rationals. -/
def wxConv (k : Nat) (x : List Nat) : ℚ :=
  if k = 103 ∨ k = 83 then (atoiD x : ℚ) * (44704 / 100000)
  else if k = 99 ∨ k = 35 ∨ k = 76 then (atoiD x : ℚ)
  else if k = 116 then (parseFloatD x - 32) / (18 / 10)
  else if k = 114 ∨ k = 112 ∨ k = 80 then (atoiD x : ℚ) * (254 / 1000)
  else if k = 104 then (if atoiD x = 0 then 100 else (atoiD x : ℚ))
  else if k = 98 then parseFloatD x / 10
  else if k = 108 then ((atoiD x + 1000 : Int) : ℚ)
  else if k = 115 then parseFloatD x * (254 / 10)
  else 0

/-- The token-application loop of `parseWeatherData`: each recognized key
writes its converted value into the `Weather` map — a panic (`none`) when
the map is nil. -/
def wxApply (p : Core) : List (List Nat) → Option Core
  | [] => some p
  | tok :: rest =>
    if tok.length < 2 then wxApply p rest
    else
      let key := tok.getD 0 0
      let valueStr := (tok.drop 1).filter (· ≠ 32)
      match wxKeyName key with
      | none => wxApply p rest
      | some name =>
        match p.Weather with
        | none => none
        | some m => wxApply { p with Weather := some (assocSet m name (wxConv key valueStr)) } rest

/-- Embeds `parseWeatherData`: rewrite a leading `DDD/DDD` wind pair to
`cDDDsDDD`, capitalize the first `s`, munch the key/value token run and
apply each recognized token; `none` is the nil-map write panic. -/
def parseWeatherData (p : Core) (body : List Nat) : Option (Core × List Nat) :=
  let body1 :=
    if 7 ≤ body.length ∧ (seg body 0 3).all (isDigitC ·) ∧ body.getD 3 0 = 47 ∧
        (seg body 4 3).all (isDigitC ·) then
      99 :: seg body 0 3 ++ 115 :: seg body 4 3 ++ body.drop 7
    else body
  let body2 := replaceFirst body1 115 83
  let (data, rest) := wxMunch body2.length body2
  if data = [] then some (p, body2)
  else
    match wxApply p (wxFindTokens data.length data) with
    | none => none
    | some p1 => some (p1, rest)

/-- Embeds `parseWeather` (the positionless `_` report): an 8-digit
timestamp then a `cXXXsXXXgXXXtXXX` header is required before the token
scan; `none` is a panic escaping from `parseWeatherData`. -/
def parseWeather (p : Core) (body : List Nat) : Option (Core × Option String) :=
  if 24 ≤ body.length ∧ (seg body 0 8).all (isDigitC ·) ∧
      body.getD 8 0 = 99 ∧ (seg body 9 3).all (isCseCls ·) ∧
      body.getD 12 0 = 115 ∧ (seg body 13 3).all (isCseCls ·) ∧
      body.getD 16 0 = 103 ∧ (seg body 17 3).all (isCseCls ·) ∧
      body.getD 20 0 = 116 ∧ (seg body 21 3).all (isCseCls ·) then
    match parseWeatherData p (body.drop 8) with
    | none => none
    | some (p1, comment) => some ({ p1 with Comment := trimBoth comment [32] }, none)
  else some (p, some "invalid positionless weather report format")

/-! ## Message decoder (src/unnamed/part_005) -/

/-- `[a-z0-9_ \-]` case-insensitive (the bulletin identifier and
addressee class). -/
def isAddrCls (c : Nat) : Bool := isAlnumC c || c == 95 || c == 32 || c == 45

/-- First index of an end-anchored `{([A-Za-z0-9]{2})}([A-Za-z0-9]{2})?$`
reply-ack tag. -/
def findBrace2 (s : List Nat) : Option Nat :=
  (List.range s.length).find? (fun i =>
    s.getD i 0 == 123 && isAlnumC (s.getD (i + 1) 0) && isAlnumC (s.getD (i + 2) 0) &&
    s.getD (i + 3) 0 == 125 &&
    (decide (i + 4 = s.length) ||
      (decide (i + 6 = s.length) && isAlnumC (s.getD (i + 4) 0) &&
        isAlnumC (s.getD (i + 5) 0))))

/-- First index of an end-anchored `{([A-Za-z0-9]{1,5})$` legacy
message-number tag. -/
def findBrace1 (s : List Nat) : Option Nat :=
  (List.range s.length).find? (fun i =>
    s.getD i 0 == 123 && decide (1 ≤ s.length - (i + 1)) &&
    decide (s.length - (i + 1) ≤ 5) && (s.drop (i + 1)).all (isAlnumC ·))

/-- Embeds `parseMessage`: bulletins, group bulletins, announcements,
then the 9-character addressee form with telemetry-config detection,
reply-ack and legacy ack/reject, and embedded trailing message-number
tags. -/
def parseMessage (p : Core) (body : List Nat) : Core :=
  -- `(?i)^BLN([0-9])([a-z0-9_ \-]{5}):(.{0,67})`
  if 10 ≤ body.length ∧ (body.getD 0 0 = 66 ∨ body.getD 0 0 = 98) ∧
      (body.getD 1 0 = 76 ∨ body.getD 1 0 = 108) ∧
      (body.getD 2 0 = 78 ∨ body.getD 2 0 = 110) ∧
      isDigitC (body.getD 3 0) ∧ (seg body 4 5).all (isAddrCls ·) ∧
      body.getD 9 0 = 58 then
    let identifier := trimRightC (seg body 4 5) 32
    let text := ((body.drop 10).takeWhile (· ≠ 10)).take 67
    let mformat := if identifier = [] then S "bulletin" else S "group-bulletin"
    { p with
      Format := mformat, MessageText := trimBoth text [32],
      BID := [body.getD 3 0], Identifier := identifier }
  -- `^BLN([A-Z])([a-zA-Z0-9_ \-]{5}):(.{0,67})`
  else if 10 ≤ body.length ∧ body.getD 0 0 = 66 ∧ body.getD 1 0 = 76 ∧
      body.getD 2 0 = 78 ∧ isUpperC (body.getD 3 0) ∧
      (seg body 4 5).all (isAddrCls ·) ∧ body.getD 9 0 = 58 then
    let identifier := trimRightC (seg body 4 5) 32
    let text := ((body.drop 10).takeWhile (· ≠ 10)).take 67
    { p with
      Format := S "announcement", MessageText := trimBoth text [32],
      AID := [body.getD 3 0], Identifier := identifier }
  -- `^([a-zA-Z0-9_ \-]{9}):(.*)$`
  else if 10 ≤ body.length ∧ (seg body 0 9).all (isAddrCls ·) ∧ body.getD 9 0 = 58 ∧
      (body.drop 10).all (· ≠ 10) then
    let p1 := { p with Addressee := trimRightC (seg body 0 9) 32 }
    let body1 := body.drop 10
    let p2 := (parseTelemetryConfig p1 body1).1
    let p3 := { p2 with Format := S "message" }
    -- `^(ack|rej)([A-Za-z0-9]{2})}([A-Za-z0-9]{2})?$`
    if (body1.take 3 = S "ack" ∨ body1.take 3 = S "rej") ∧
        isAlnumC (body1.getD 3 0) ∧ isAlnumC (body1.getD 4 0) ∧ body1.getD 5 0 = 125 ∧
        (body1.length = 6 ∨
          (body1.length = 8 ∧ isAlnumC (body1.getD 6 0) ∧ isAlnumC (body1.getD 7 0))) then
      let p4 := { p3 with Response := body1.take 3, MsgNo := seg body1 3 2 }
      if body1.length = 8 then { p4 with AckMsgNo := seg body1 6 2 } else p4
    -- `^(ack|rej)([A-Za-z0-9]{1,5})$`
    else if (body1.take 3 = S "ack" ∨ body1.take 3 = S "rej") ∧
        1 ≤ body1.length - 3 ∧ body1.length - 3 ≤ 5 ∧
        (body1.drop 3).all (isAlnumC ·) then
      { p3 with Response := body1.take 3, MsgNo := body1.drop 3 }
    else
      let p4 := { p3 with MessageText := trimBoth body1 [32] }
      match findBrace2 body1 with
      | some i =>
        let msgNo := seg body1 (i + 1) 2
        let ackMsgNo := if i + 6 = body1.length then seg body1 (i + 4) 2 else []
        let removeLen := 4 + ackMsgNo.length
        let p5 :=
          if removeLen ≤ body1.length then
            { p4 with MessageText := trimBoth (body1.take (body1.length - removeLen)) [32] }
          else p4
        let p6 := { p5 with MsgNo := msgNo }
        if ackMsgNo ≠ [] then { p6 with AckMsgNo := ackMsgNo } else p6
      | none =>
        match findBrace1 body1 with
        | some i =>
          let msgNo := body1.drop (i + 1)
          let removeLen := 1 + msgNo.length
          let p5 :=
            if removeLen ≤ body1.length then
              { p4 with MessageText := trimBoth (body1.take (body1.length - removeLen)) [32] }
            else p4
          { p5 with MsgNo := msgNo }
        | none => p4
  else p

/-! ## Compressed-position decoder (src/unnamed/part_003) -/

/-- Embeds `parseCompressed`: a 13-character block of symbol table,
base-91 latitude and longitude, symbol code and three compression-type
bytes selecting course/speed, altitude, radio range or a GPS-fix flag.
Returns the mutated record, the remaining body, and the `error`. -/
def parseCompressed (p : Core) (body : List Nat) : Core × List Nat × Option String :=
  if body.length < 13 then (p, body, some "invalid compressed format")
  else
    let p1 := { p with Format := S "compressed" }
    let compressed := body.take 13
    let rest := body.drop 13
    let symbolTable := [compressed.getD 0 0]
    let symbol := [compressed.getD 9 0]
    match ToDecimal (seg compressed 1 4) with
    | none => (p1, rest, some "invalid character in sequence")
    | some base91Lat =>
      match ToDecimal (seg compressed 5 4) with
      | none => (p1, rest, some "invalid character in sequence")
      | some base91Lon =>
        let latitude : ℚ := 90 - (base91Lat : ℚ) / 380926
        let longitude : ℚ := -180 + (base91Lon : ℚ) / 190463
        let c1 : Int := (compressed.getD 10 0 : Int) - 33
        let s1 : Int := (compressed.getD 11 0 : Int) - 33
        let ctype : Int := (compressed.getD 12 0 : Int) - 33
        let p2 :=
          if c1 = -1 then { p1 with GPSFixStatus := maskAnd ctype 0x20 = 0x20 }
          else p1
        let p3 :=
          if c1 = -1 ∨ s1 = -1 then p2
          else if maskAnd ctype 0x18 = 0x10 then
            { p2 with Altitude := (1002 / 1000 : ℚ) ^ (c1 * 91 + s1) * (3048 / 10000) }
          else if 0 ≤ c1 ∧ c1 ≤ 89 then
            let course : Int := if c1 = 0 then 360 else c1 * 4
            let speed : ℚ := ((108 / 100 : ℚ) ^ s1 - 1) * (1852 / 1000)
            { p2 with Course := (course : ℚ), Speed := speed }
          else if c1 = 90 then
            { p2 with RadioRange := 2 * (108 / 100 : ℚ) ^ s1 * (1609344 / 1000000) }
          else p2
        ({ p3 with Symbol := [symbol, symbolTable], Lon := longitude, Lat := latitude },
          rest, none)

/-! ## Mic-E decoder (src/unnamed/part_006, byte-level revision) -/

/-- The standard Mic-E message-type table. -/
def mtypeStd : List (List Nat × List Nat) :=
  [(S "111", S "M0: Off Duty"), (S "110", S "M1: En Route"),
   (S "101", S "M2: In Service"), (S "100", S "M3: Returning"),
   (S "011", S "M4: Committed"), (S "010", S "M5: Special"),
   (S "001", S "M6: Priority"), (S "000", S "Emergency")]

/-- The custom Mic-E message-type table. -/
def mtypeCustom : List (List Nat × List Nat) :=
  [(S "111", S "C0: Custom-0"), (S "110", S "C1: Custom-1"),
   (S "101", S "C2: Custom-2"), (S "100", S "C3: Custom-3"),
   (S "011", S "C4: Custom-4"), (S "010", S "C5: Custom-5"),
   (S "001", S "C6: Custom-6"), (S "000", S "Emergency")]

/-- Match of `^(.*)([!-{]{3})}(.*)$` — rightmost three-character base-91
altitude block terminated by `}`, with newline-free prefix and suffix. -/
def findMicEAlt : List Nat → Option (List Nat × List Nat × List Nat)
  | [] => none
  | c :: rest =>
    let later :=
      if c = 10 then none
      else
        match findMicEAlt rest with
        | some (pre, a, post) => some (c :: pre, a, post)
        | none => none
    match later with
    | some r => some r
    | none =>
      match c :: rest with
      | a :: b :: d :: 125 :: post =>
        if 33 ≤ a ∧ a ≤ 123 ∧ 33 ≤ b ∧ b ≤ 123 ∧ 33 ≤ d ∧ d ≤ 123 ∧
            post.all (· ≠ 10)
        then some ([], [a, b, d], post)
        else none
      | _ => none

/-- The latitude/message-bits/longitude/speed/course section of
`parseMicE` (from the destination-callsign substitution through the
speed/course unpacking), split out of the driver for provability. -/
def micELatLon (p1 : Core) (dstCall body : List Nat) : Core × Option String :=
  let tempDstCall := dstCall.map (fun c =>
    if c = 75 ∨ c = 76 ∨ c = 90 then 32
    else if 76 < c then c - 32
    else if 57 < c then c - 17
    else c)
  let digs := tempDstCall.takeWhile (isDigitC ·)
  let spaces := tempDstCall.dropWhile (isDigitC ·)
  if digs = [] ∨ ¬ spaces.all (· = 32) then (p1, some "invalid latitude ambiguity")
  else
    let posAmbiguity := spaces.length
    let p2 := { p1 with PosAmbiguity := posAmbiguity }
    let t2 :=
      if 0 < posAmbiguity then
        if 4 ≤ posAmbiguity then tempDstCall.set 2 51
        else tempDstCall.set (6 - posAmbiguity) 53
      else tempDstCall
    let latMinutesStr := replaceAllC (seg t2 2 2 ++ 46 :: seg t2 4 2) 32 48
    match parseFloatQ latMinutesStr with
    | none => (p2, some "invalid latitude minutes format")
    | some latMinutes =>
      let latDegrees := atoiD (t2.take 2)
      let latitude0 : ℚ := (latDegrees : ℚ) + latMinutes / 60
      let latitude := if dstCall.getD 3 0 ≤ 0x4c then -latitude0 else latitude0
      let p3 := { p2 with Lat := latitude }
      let mBits := (dstCall.take 3).map (fun c =>
        if isDigitC c ∨ c = 76 then 48
        else if 80 ≤ c ∧ c ≤ 90 then 49
        else if 65 ≤ c ∧ c ≤ 75 then 50
        else c)
      let p4 := { p3 with MBits := mBits }
      let mtype :=
        if mBits.contains 50 then assocGetD mtypeCustom (replaceAllC mBits 50 49)
        else assocGetD mtypeStd mBits
      let p5 := { p4 with MType := mtype }
      let lon0 : ℚ := (body.getD 0 0 : ℚ) - 28
      let lon1 := if 0x50 ≤ dstCall.getD 4 0 then lon0 + 100 else lon0
      let lon2 :=
        if 180 ≤ lon1 ∧ lon1 ≤ 189 then lon1 - 80
        else if 190 ≤ lon1 ∧ lon1 ≤ 199 then lon1 - 190
        else lon1
      let lm0 : ℚ := (body.getD 1 0 : ℚ) - 28
      let lm1 := if 60 ≤ lm0 then lm0 - 60 else lm0
      let lm2 := lm1 + ((body.getD 2 0 : ℚ) - 28) / 100
      let lmRes : Except String ℚ :=
        if posAmbiguity = 4 then .ok 30
        else if posAmbiguity = 3 then .ok (((lm2 / 10).floor + 1 / 2) * 10)
        else if posAmbiguity = 2 then .ok (lm2.floor + 1 / 2)
        else if posAmbiguity = 1 then .ok (((lm2 * 10).floor + 1 / 2) / 10)
        else if posAmbiguity ≠ 0 then
          .error ("Unsupported position ambiguity: " ++ toString posAmbiguity)
        else .ok lm2
      match lmRes with
      | .error e => (p5, some e)
      | .ok lngMinutes =>
        let lon3 := lon2 + lngMinutes / 60
        let lon4 := if 0x50 ≤ dstCall.getD 5 0 then -lon3 else lon3
        let p6 := { p5 with Lon := lon4 }
        let speed0 : ℚ := ((body.getD 3 0 : ℚ) - 28) * 10
        let course0 : ℚ := (body.getD 4 0 : ℚ) - 28
        let quotient : Int := (course0 / 10).floor
        let course1 := course0 - (quotient * 10 : Int)
        let course2 := course1 * 100 + (body.getD 5 0 : ℚ) - 28
        let speed1 := speed0 + (quotient : ℚ)
        let speed2 := if 800 ≤ speed1 then speed1 - 800 else speed1
        let course3 := if 400 ≤ course2 then course2 - 400 else course2
        let speed3 := speed2 * (1852 / 1000)
        ({ p6 with Speed := speed3, Course := course3 }, none)

/-- The optional Mic-E telemetry step (`re4`): an apostrophe with ten hex
digits (five channels) or a backtick with four hex digits (two channels),
decoded most-significant channel last. -/
def micETelStep (p7 : Core) (rest0 : List Nat) : Except String (Core × List Nat) :=
  if rest0.getD 0 0 = 39 ∧ 11 ≤ rest0.length ∧
      (seg rest0 1 10).all (isLowerHex ·) ∧ (rest0.drop 11).all (· ≠ 10) then
    match parseHexInt (seg rest0 1 10) with
    | none => .error "invalid telemetry hex data"
    | some hexInt =>
      let telemetry := (List.range 5).map
        (fun i => hexInt / 2 ^ (8 * (4 - i)) % 256)
      .ok ({ p7 with TelemetryMicE := telemetry }, rest0.drop 11)
  else if rest0.getD 0 0 = 96 ∧ 5 ≤ rest0.length ∧
      (seg rest0 1 4).all (isLowerHex ·) ∧ (rest0.drop 5).all (· ≠ 10) then
    match parseHexInt (seg rest0 1 4) with
    | none => .error "invalid telemetry hex data"
    | some hexInt =>
      let telemetry := (List.range 2).map
        (fun i => hexInt / 2 ^ (8 * (1 - i)) % 256)
      .ok ({ p7 with TelemetryMicE := telemetry }, rest0.drop 5)
  else .ok (p7, rest0)

/-- The optional Mic-E altitude step (`re5`): the rightmost three-byte
base-91 block terminated by `}`, offset by −10000 meters. -/
def micEAltStep (p8 : Core) (rest1 : List Nat) : Except String (Core × List Nat) :=
  match findMicEAlt rest1 with
  | none => .ok (p8, rest1)
  | some (pre, alt3, post) =>
    match ToDecimal alt3 with
    | none => .error "invalid character in sequence"
    | some altitudeBase91 =>
      .ok ({ p8 with Altitude := (altitudeBase91 : ℚ) - 10000 }, pre ++ post)

/-- The trailing section of `parseMicE` (`len(body) > 8`): optional 2- or
5-channel hex telemetry, optional base-91 altitude tag, then comment
telemetry, DAO and the comment. -/
def micETrail (p7 : Core) (body : List Nat) : Core × Option String :=
  if 8 < body.length then
    let rest0 := body.drop 8
    match micETelStep p7 rest0 with
    | .error e => (p7, some e)
    | .ok (p8, rest1) =>
      match micEAltStep p8 rest1 with
      | .error e => (p8, some e)
      | .ok (p9, rest2) =>
        let ct := parseCommentTelemetry p9 rest2
        let dao := parseDAO ct.1 ct.2
        ({ dao.1 with Comment := trimBoth dao.2 [32] }, none)
  else (p7, none)

/-- The destination callsign with any `-SSID` suffix removed
(`strings.Split(dstCallFull, "-")[0]`). -/
def micEDstCall (dstCallFull : List Nat) : List Nat :=
  match splitOnce dstCallFull 45 with
  | some (a, _) => a
  | none => dstCallFull

/-- The packet record right after `p.Format = "mic-e"` is set. -/
def micEP0 (p : Core) : Core := { p with Format := S "mic-e" }

/-- The packet record after the symbol table/code bytes are stored. -/
def micEP1 (p : Core) (body : List Nat) : Core :=
  { micEP0 p with Symbol := [[body.getD 6 0], [body.getD 7 0]] }

/-- Embeds `parseMicE` (the byte-level revision): destination-callsign
and body-grammar validation, symbol extraction, then `micELatLon` and
`micETrail`. -/
def parseMicE (p : Core) (dstCallFull : List Nat) (body : List Nat) :
    Core × Option String :=
  let p0 := micEP0 p
  let dstCall := micEDstCall dstCallFull
  if dstCall.length ≠ 6 then (p0, some "dstCall has to be 6 characters")
  else if body.length < 8 then (p0, some "packet data field is too short")
  else if ¬ ((dstCall.take 3).all (fun c => isDigitC c || isUpperC c) ∧
      (dstCall.drop 3).all (fun c => isDigitC c || (76 ≤ c && c ≤ 90))) then
    (p0, some "invalid dstCall")
  else if ¬ (38 ≤ body.getD 0 0 ∧ body.getD 0 0 ≤ 127 ∧
      38 ≤ body.getD 1 0 ∧ body.getD 1 0 ≤ 97 ∧
      28 ≤ body.getD 2 0 ∧ body.getD 2 0 ≤ 127 ∧
      28 ≤ body.getD 3 0 ∧ body.getD 3 0 ≤ 127 ∧
      28 ≤ body.getD 4 0 ∧ body.getD 4 0 ≤ 125 ∧
      28 ≤ body.getD 5 0 ∧ body.getD 5 0 ≤ 127 ∧
      33 ≤ body.getD 6 0 ∧ body.getD 6 0 ≤ 126 ∧
      isSymTableC (body.getD 7 0)) then
    (p0, some "invalid data format")
  else
    match micELatLon (micEP1 p body) dstCall body with
    | (pe, some e) => (pe, some e)
    | (p7, none) => micETrail p7 body

/-! ## Header decoder (src/unnamed/part_002) -/

/-- The per-element path validation loop of `parseHeader`; the compiled
pattern is fetched from the cache on every iteration, as in the source. -/
def pathsCheck (c : Cache) : List (List Nat) → Bool × Cache
  | [] => (true, c)
  | pa :: rest =>
    let m := runCached c patPathElem pa
    if m.1.isNone then (false, m.2)
    else pathsCheck m.2 rest

/-- Embeds `parseHeader`: split on the first `>`, validate the sender
callsign (length 1–9 and the `{0,9}` grammar), take the first path
element as destination callsign (`ValidateCallsign`), drop blank path
elements and validate the rest. -/
def parseHeader (c : Cache) (p : Core) (head : List Nat) : Out Unit × Cache :=
  match splitOnce head 62 with
  | none => (.fail p "invalid packet header", c)
  | some (fromCall, path) =>
    let m1 := runCached c patFromCall fromCall
    let c1 := m1.2
    if ¬ (1 ≤ fromCall.length ∧ fromCall.length ≤ 9) ∨ m1.1.isNone then
      (.fail p "fromCallsign is invalid", c1)
    else
      let paths := splitAll path 44
      if paths.length < 1 then (.fail p "no toCallsign in header", c1)
      else if (paths.getD 0 []).length = 0 then (.fail p "no toCallsign in header", c1)
      else
        let toCall := paths.getD 0 []
        let rest := paths.drop 1
        if ¬ ValidateCallsign toCall then (.fail p "invalid toCallsign in header", c1)
        else
          let filtered := rest.filter (fun pa => trimSpace pa ≠ [])
          match pathsCheck c1 filtered with
          | (false, c2) => (.fail p "invalid callsign in path", c2)
          | (true, c2) =>
            (.ok { p with From := fromCall, To := toCall, Path := filtered } (), c2)

/-! ## Timestamp decoder (src/unnamed/part_007, lines 433–477 revision) -/

/-- Embeds `parseTimeStamp`: a six-digit field plus one format byte.
`h` uses the clock's date with the given HHMMSS; `z` and `/` use the
clock's year/month with the given DDHHMM and seconds forced to zero; any
other format byte leaves the timestamp 0 without error.  An invalid
reconstructed date also yields 0 without error. -/
def parseTimeStamp (clock : Clock) (c : Cache) (p : Core)
    (packetType body : List Nat) : Out (List Nat) × Cache :=
  if body.length < 7 then (.fail p "invalid timestamp format", c)
  else
    let m := runCached c patTs (body.take 7)
    let c1 := m.2
    match m.1 with
    | none => (.fail p "invalid timestamp format", c1)
    | some groups =>
      let rawts := groups.getD 1 []
      let ts := groups.getD 2 []
      let form := groups.getD 3 []
      if ¬ (packetType = S ">" ∧ form ≠ S "z") then
        let timestamp : Int :=
          if form = S "h" then
            (parseTimeString14 clock.Year clock.Month clock.Day
              (digitsVal (seg ts 0 2)) (digitsVal (seg ts 2 2))
              (digitsVal (seg ts 4 2))).getD 0
          else if form = S "z" ∨ form = S "/" then
            (parseTimeString14 clock.Year clock.Month
              (digitsVal (seg ts 0 2)) (digitsVal (seg ts 2 2))
              (digitsVal (seg ts 4 2)) 0).getD 0
          else 0
        (.ok { p with RawTimestamp := rawts, Timestamp := timestamp } (body.drop 7), c1)
      else
        (.ok { p with RawTimestamp := rawts, Timestamp := 0 } body, c1)

/-! ## Normal-position decoder (src/unnamed/part_003) -/

/-- The degree/minute conversion of `parseNormal`, taking the minute
strings **after** ambiguity substitution. -/
def parseNormalCoord (p2 : Core) (latDeg latMin1 latDir symbolTable lonDeg
    lonMin1 lonDir symbol remainingBody : List Nat) : Out (List Nat) :=
  match atoi latDeg with
  | none => .fail p2 "invalid latitude degrees"
  | some latDegInt =>
    if 89 < latDegInt ∨ latDegInt < 0 then
      .fail p2 "latitude is out of range (0-90 degrees)"
    else
      match atoi lonDeg with
      | none => .fail p2 "invalid longitude degrees"
      | some lonDegInt =>
        if 179 < lonDegInt ∨ lonDegInt < 0 then
          .fail p2 "longitude is out of range (0-180 degrees)"
        else
          match parseFloatQ (trimSpace latMin1) with
          | none => .fail p2 "invalid latitude minutes"
          | some latMinFloat =>
            let latitude : ℚ := (latDegInt : ℚ) + latMinFloat / 60
            match parseFloatQ (trimSpace lonMin1) with
            | none => .fail p2 "invalid longitude minutes"
            | some lonMinFloat =>
              let longitude : ℚ := (lonDegInt : ℚ) + lonMinFloat / 60
              let lat2 :=
                if latDir.getD 0 0 = 83 ∨ latDir.getD 0 0 = 115 then -latitude
                else latitude
              let lon2 :=
                if lonDir.getD 0 0 = 87 ∨ lonDir.getD 0 0 = 119 then -longitude
                else longitude
              .ok { p2 with
                Symbol := [symbol, symbolTable], Lon := lon2, Lat := lat2 }
                remainingBody

/-- The matched-body stage of `parseNormal`: blank-count position
ambiguity (the counts of latitude and longitude minutes must agree),
box-centering for ambiguity at least 4, and the single
`strings.Replace(..., 1)` of the first blank by `5`. -/
def parseNormalMatched (p : Core) (g : List (List Nat)) : Out (List Nat) :=
  let p1 := { p with Format := S "uncompressed" }
  let latMin := g.getD 2 []
  let lonMin := g.getD 6 []
  let posAmbiguity := countC latMin 32
  if posAmbiguity ≠ countC lonMin 32 then
    .fail p1 "latitude and longitude ambiguity mismatch"
  else
    let p2 := { p1 with PosAmbiguity := posAmbiguity }
    let latMin1 := if 4 ≤ posAmbiguity then S "30" else replaceFirst latMin 32 53
    let lonMin1 := if 4 ≤ posAmbiguity then S "30" else replaceFirst lonMin 32 53
    parseNormalCoord p2 (g.getD 1 []) latMin1 (g.getD 3 []) (g.getD 4 [])
      (g.getD 5 []) lonMin1 (g.getD 7 []) (g.getD 8 []) (g.getD 9 [])

/-- Embeds `parseNormal`: when the full fixed-width pattern does not
match, the body is returned unchanged **without error**; otherwise decode
degrees/minutes with blank-based position ambiguity (only the first blank
of each minutes field is replaced by `5`). -/
def parseNormal (c : Cache) (p : Core) (body : List Nat) : Out (List Nat) × Cache :=
  let m := runCached c patNormal body
  match m.1 with
  | none => (.ok p body, m.2)
  | some g => (parseNormalMatched p g, m.2)

/-! ## Position decoder (src/unnamed/part_003) -/

/-- The coordinate-body dispatch of `parsePosition` (lines 52–63): if the
coarse fixed-width pre-check matches, decode as normal — a full-pattern
mismatch inside `parseNormal` then returns the body unchanged without
error — otherwise attempt compressed decoding. -/
def decodeCoord (c : Cache) (p : Core) (body : List Nat) : Out (List Nat) × Cache :=
  let mC := runCached c patCoarse body
  if mC.1.isSome then parseNormal mC.2 p body
  else
    match parseCompressed p body with
    | (p3, rest, none) => (.ok p3 rest, mC.2)
    | (p3, rest, some e) => (.fail p3 e, mC.2)

/-- Discriminator normalization (`parsePosition` lines 13–18): a
discriminator outside `!=/@;` means the position report starts at the
first `!` of the body instead. -/
def posNorm (packetType body : List Nat) : List Nat × List Nat :=
  if ¬ isInfixL packetType (S "!=/@;") then
    (S "!", (match splitOnce body 33 with | some (_, b) => b | none => []))
  else (packetType, body)

/-- Object-prefix handling and the message-capable flag. -/
def posStep1 (c : Cache) (p : Core) (pt body0 : List Nat) :
    Out (List Nat) × Cache :=
  if pt = S ";" then
    let m := runCached c patObjHead body0
    match m.1 with
    | some g =>
      (.ok { p with ObjectName := g.getD 1 [], Alive := g.getD 2 [] = S "*" }
        (body0.drop 10), m.2)
    | none => (.fail p "invalid format", m.2)
  else (.ok { p with MessageCapable := isInfixL pt (S "@=") } body0, c)

/-- The final object-format relabeling of `parsePosition`. -/
def posFinish (pt : List Nat) (c4 : Cache) (pf : Core) : Out Unit × Cache :=
  if pt = S ";" then
    (.ok { pf with ObjectFormat := pf.Format, Format := S "object" } (), c4)
  else (.ok pf (), c4)

/-- The weather-or-comment tail of `parsePosition`, which reads
`p.Symbol[0]` (a panic on an empty symbol) and stores into the nil
`Weather` map (a panic whenever weather data is parsed). -/
def posTail (pt : List Nat) (c4 : Cache) (p3 : Core) (body3 : List Nat) :
    Out Unit × Cache :=
  match p3.Symbol with
  | [] => (.panicked "runtime error: index out of range [0] with length 0", c4)
  | s0 :: _ =>
    if s0 = S "_" then
      let pb := parseDataExtensions p3 body3
      match parseWeatherData pb.1 pb.2 with
      | none => (.panicked "assignment to entry in nil map", c4)
      | some (p4, _) => posFinish pt c4 p4
    else posFinish pt c4 (parseComment p3 body3).1

/-- The empty-body timestamp check and coordinate decoding of
`parsePosition`. -/
def posAfterTs (pt : List Nat) (c2 : Cache) (p2 : Core) (body2 : List Nat) :
    Out Unit × Cache :=
  if body2.length = 0 ∧ p2.Timestamp ≠ 0 then
    (.fail p2 "invalid timestamp format", c2)
  else
    match decodeCoord c2 p2 body2 with
    | (.fail p3 e, c4) => (.fail p3 e, c4)
    | (.panicked e, c4) => (.panicked e, c4)
    | (.ok p3 body3, c4) => posTail pt c4 p3 body3

/-- Embeds `parsePosition`: discriminator normalization, object prefix,
message-capable flag, optional timestamp, coarse-pattern dispatch between
normal and compressed coordinate decoding, then weather or comment
processing; reading `p.Symbol[0]` with an empty `Symbol` and writing to
the nil `Weather` map are run-time panics. -/
def parsePosition (clock : Clock) (c : Cache) (p : Core)
    (packetType body : List Nat) : Out Unit × Cache :=
  let pt := (posNorm packetType body).1
  let body0 := (posNorm packetType body).2
  match posStep1 c p pt body0 with
  | (.fail p1 e, c1) => (.fail p1 e, c1)
  | (.panicked e, c1) => (.panicked e, c1)
  | (.ok p1 body1, c1) =>
    if isInfixL pt (S "/@;") then
      match parseTimeStamp clock c1 p1 pt body1 with
      | (.fail p2 e, c2) => (.fail p2 e, c2)
      | (.panicked e, c2) => (.panicked e, c2)
      | (.ok p2 body2, c2) => posAfterTs pt c2 p2 body2
    else posAfterTs pt c1 p1 body1

/-! ## Body dispatcher, third-party recursion and `Parse`
(src/unnamed/part_002, src/parser/thirdparty.go,
src/unnamed/part_007 lines 391–430) -/

/-- The `unsupportedFormats` discriminator set (`parser` package). -/
def unsupportedFormats : List (List Nat) :=
  [S "#", S "$", S "%", S "&", S "(", S ")", S "*", S "+", S "-", S ".",
   S "<", S "?", S "T", S "[", S "\\", S "]", S "^"]

/-- Membership in the `unsupportedFormats` set. -/
def isUnsupported (pt : List Nat) : Bool := unsupportedFormats.contains pt

/-- Embeds `parseThirdParty`: tag the record, recursively parse the inner
packet, and attach it as the sub-packet on success. -/
def parseThirdParty (rec : Cache → List Nat → PRes × Cache) (c : Cache)
    (p : Core) (body : List Nat) : PRes × Cache :=
  let p1 := { p with Format := S "thirdparty" }
  match rec c body with
  | (.done q none, c1) => (.done (Parsed.mk p1 (some q)) none, c1)
  | (.done _ (some e), c1) => (.done (Parsed.mk p1 none) (some e), c1)
  | (.panicked e, c1) => (.panicked e, c1)
  | (.outOfFuel, c1) => (.outOfFuel, c1)

/-- Lift a position-decoder outcome to a body-dispatch outcome. -/
def posWrap : Out Unit × Cache → PRes × Cache
  | (.ok p _, c) => (.done (Parsed.mk p none) none, c)
  | (.fail p e, c) => (.done (Parsed.mk p none) (some e), c)
  | (.panicked e, c) => (.panicked e, c)

/-- Embeds `parseBody`: dispatch on the discriminator character, with the
unsupported-format set, the `!`-within-40-characters position fallback,
and the `parseInvalid` default. -/
def parseBody (rec : Cache → List Nat → PRes × Cache) (clock : Clock)
    (c : Cache) (p : Core) (body : List Nat) : PRes × Cache :=
  match body with
  | [] => (.panicked "runtime error: slice bounds out of range", c)
  | _ =>
    let packetType := body.take 1
    let rest := body.drop 1
    if rest.length = 0 ∧ packetType ≠ S ">" then
      (.done (Parsed.mk p none)
        (some "packet body is empty after packet type character"), c)
    else if isUnsupported packetType then
      (.done (Parsed.mk p none) (some "packet type is unsupported"), c)
    else if packetType = S "\x7d" then parseThirdParty rec c p rest
    else if packetType = S "," then
      (.done (Parsed.mk (parseInvalid p rest) none) none, c)
    else if packetType = S "\x7b" then
      match parseUserDefined p rest with
      | none => (.panicked "runtime error: index out of range [1] with length 1", c)
      | some p1 => (.done (Parsed.mk p1 none) none, c)
    else if packetType = S ">" then
      (.done (Parsed.mk (parseStatus p rest) none) none, c)
    else if packetType = S "`" ∨ packetType = S "â€˜" ∨ packetType = S "'" then
      match parseMicE p p.To rest with
      | (p1, some e) => (.done (Parsed.mk p1 none) (some e), c)
      | (p1, none) => (.done (Parsed.mk p1 none) none, c)
    else if packetType = S ":" then
      (.done (Parsed.mk (parseMessage p rest) none) none, c)
    else if packetType = S "_" then
      match parseWeather p rest with
      | none => (.panicked "assignment to entry in nil map", c)
      | some (p1, some e) => (.done (Parsed.mk p1 none) (some e), c)
      | some (p1, none) => (.done (Parsed.mk p1 none) none, c)
    else if packetType = S "!" ∨ packetType = S "=" ∨ packetType = S "/" ∨
        packetType = S "@" ∨ packetType = S ";" then
      posWrap (parsePosition clock c p packetType rest)
    else
      let pos := rest.findIdx (· == 33)
      if pos < rest.length ∧ pos < 40 then
        posWrap (parsePosition clock c p packetType rest)
      else (.done (Parsed.mk (parseInvalid p rest) none) none, c)

/-- Embeds `Parse` (src/unnamed/part_007 lines 391–430): preserve the raw
line, reject empty input, trim CR/LF, split head and body on the first
`:`, then header and body decoding.  The fuel bounds the third-party
recursion depth and is consumed only there. -/
def ParseC (clock : Clock) : Nat → Cache → List Nat → PRes × Cache
  | 0, c, _ => (.outOfFuel, c)
  | fuel + 1, c, packet =>
    let p0 : Core := { Raw := packet }
    if packet = [] then (.done (Parsed.mk p0 none) (some "packet is empty"), c)
    else
      let pk := trimBoth packet [13, 10]
      match splitOnce pk 58 with
      | none => (.done (Parsed.mk p0 none) (some "packet has no body"), c)
      | some (head, body) =>
        if head.length = 0 ∨ body.length = 0 then
          (.done (Parsed.mk p0 none) (some "packet head or body is empty"), c)
        else
          match parseHeader c p0 head with
          | (.ok p1 _, c1) => parseBody (ParseC clock fuel) clock c1 p1 body
          | (.fail p1 e, c1) => (.done (Parsed.mk p1 none) (some e), c1)
          | (.panicked e, c1) => (.panicked e, c1)

/-- `Parse` as exposed to callers: a fresh decode starting from the empty
compiled-pattern cache. -/
def Parse (clock : Clock) (fuel : Nat) (packet : List Nat) : PRes :=
  (ParseC clock fuel [] packet).1

/-! ## Observation helpers for the theorems -/

/-- The raw line stored in a stage outcome (default for a panic, which
returns nothing to the caller). -/
def Out.rawOf {α : Type} (d : List Nat) : Out α → List Nat
  | .ok p _ => p.Raw
  | .fail p _ => p.Raw
  | .panicked _ => d

/-- The raw line stored in a parse outcome. -/
def PRes.rawOf (d : List Nat) : PRes → List Nat
  | .done q _ => q.core.Raw
  | .panicked _ => d
  | .outOfFuel => d

/-- The `error` value of a completed parse (`none` for a panic, which
returns no error value at all). -/
def PRes.errOf : PRes → Option String
  | .done _ e => e
  | .panicked _ => none
  | .outOfFuel => none

/-- The record of a completed parse (the zero record otherwise). -/
def PRes.coreOf : PRes → Core
  | .done q _ => q.core
  | .panicked _ => {}
  | .outOfFuel => {}

/-- The sub-packet of a completed parse. -/
def PRes.subOf : PRes → Option Parsed
  | .done q _ => q.subPacket
  | .panicked _ => none
  | .outOfFuel => none

/-- Whether a parse ended in a run-time panic, with its message. -/
def PRes.panicMsg : PRes → Option String
  | .panicked e => some e
  | .done _ _ => none
  | .outOfFuel => none

/-- Whether a stage outcome is a Go `error` return. -/
def Out.isFailB {α : Type} : Out α → Bool
  | .fail _ _ => true
  | .ok _ _ => false
  | .panicked _ => false

/-- Whether a stage outcome is a run-time panic, with its message. -/
def Out.panicMsg {α : Type} : Out α → Option String
  | .panicked e => some e
  | .ok _ _ => none
  | .fail _ _ => none

/-- The `error` message of a stage outcome. -/
def Out.errMsg {α : Type} : Out α → Option String
  | .fail _ e => some e
  | .ok _ _ => none
  | .panicked _ => none

/-- The format tag recorded in a stage outcome. -/
def Out.fmtOf {α : Type} : Out α → List Nat
  | .ok p _ => p.Format
  | .fail p _ => p.Format
  | .panicked _ => []

/-- The timestamp recorded in a stage outcome. -/
def Out.tsOf {α : Type} : Out α → Int
  | .ok p _ => p.Timestamp
  | .fail p _ => p.Timestamp
  | .panicked _ => 0

/-! ## Definitions following the spec's words (refinement comparisons)

These two grammars transcribe claim C5's sender and destination grammars
literally; they are compared against the grammars the code actually
enforces (`matchFromCall` with `{0,9}`, case-sensitive
`ValidateCallsign`). -/

/-- Modelled from the spec (claim C5): the sender grammar
`^[A-Za-z0-9]{1,9}(-[A-Za-z0-9]{1,8})?$`, case-insensitive — at least one
leading alphanumeric, unlike the code's `{0,9}`. -/
def specSenderGrammar (s : List Nat) : Bool :=
  let pre := s.takeWhile (isAlnumC ·)
  let rest := s.dropWhile (isAlnumC ·)
  decide (1 ≤ pre.length) && decide (pre.length ≤ 9) &&
    (match rest with
     | [] => true
     | 45 :: tail => !tail.isEmpty && decide (tail.length ≤ 8) && tail.all (isAlnumC ·)
     | _ => false)

/-- Modelled from the spec (claim C5): the destination grammar
`^[A-Za-z0-9]{1,6}(-\d{1,2})?$` applied case-insensitively — unlike the
code's case-sensitive `ValidateCallsign`. -/
def specDestGrammar (s : List Nat) : Bool :=
  let pre := s.takeWhile (isAlnumC ·)
  let rest := s.dropWhile (isAlnumC ·)
  decide (1 ≤ pre.length) && decide (pre.length ≤ 6) &&
    (match rest with
     | [] => true
     | 45 :: tail => !tail.isEmpty && decide (tail.length ≤ 2) && tail.all (isDigitC ·)
     | _ => false)

/-! ## Claim theorems on the full decoder -/

/-! ## Raw-line preservation through every decoding stage (claim C1) -/

/-! ## Theorems -/

theorem b91digitsF_fuel_irrel :
    ∀ f1 f2 n, n ≤ f1 → n ≤ f2 → b91digitsF f1 n = b91digitsF f2 n := by
  intro f1
  induction f1 using Nat.strong_induction_on with
  | _ f1 ih =>
    intro f2 n h1 h2
    match f1, f2 with
    | 0, f2 =>
      have hn : n = 0 := by omega
      subst hn
      cases f2 <;> simp [b91digitsF]
    | g1 + 1, 0 =>
      have hn : n = 0 := by omega
      subst hn
      simp [b91digitsF]
    | g1 + 1, g2 + 1 =>
      by_cases hn : n = 0
      · simp [b91digitsF, hn]
      · simp only [b91digitsF, hn, if_false, List.cons.injEq, true_and]
        have hd : n / 91 < n := Nat.div_lt_self (Nat.pos_of_ne_zero hn) (by omega)
        exact ih g1 (by omega) g2 (n / 91) (by omega) (by omega)

/-- Unfolding equation for `b91digits` free of the fuel parameter. -/
theorem b91digits_eq (n : Nat) :
    b91digits n = if n = 0 then [] else (n % 91 + 33) :: b91digits (n / 91) := by
  by_cases hn : n = 0
  · simp [b91digits, hn, b91digitsF]
  · cases hm : n with
    | zero => exact absurd hm hn
    | succ m =>
      simp only [b91digits, b91digitsF, hn, if_false, ← hm, List.cons.injEq, true_and]
      have hd : n / 91 < n := Nat.div_lt_self (by omega) (by omega)
      exact b91digitsF_fuel_irrel m (n / 91) (n / 91) (by omega) (le_refl _)

theorem b91val_append (xs ys : List Nat) :
    b91val (xs ++ ys) = b91val xs * 91 ^ ys.length + b91val ys := by
  induction xs with
  | nil => simp [b91val]
  | cons c rest ih =>
    simp only [List.cons_append, b91val, List.append_eq, ih, List.length_append]
    ring

theorem b91val_reverse (l : List Nat) : b91val l.reverse = b91valL l := by
  induction l with
  | nil => rfl
  | cons c rest ih =>
    simp only [List.reverse_cons, b91val_append, ih, b91val, b91valL,
      List.length_singleton, List.length_nil, pow_one, pow_zero, Nat.mul_one]
    omega

theorem b91valL_digits (n : Nat) : b91valL (b91digits n) = n := by
  induction n using Nat.strong_induction_on with
  | _ n ih =>
    by_cases h : n = 0
    · subst h; simp [b91digits, b91digitsF, b91valL]
    · rw [b91digits_eq]
      simp only [h, if_false, b91valL]
      have hlt : n / 91 < n := Nat.div_lt_self (Nat.pos_of_ne_zero h) (by omega)
      rw [ih _ hlt]
      have h33 : n % 91 + 33 - 33 = n % 91 := by omega
      rw [h33]
      exact Nat.mod_add_div n 91

theorem b91val_dropWhile (l : List Nat) :
    b91val (l.dropWhile (· == 33)) = b91val l := by
  induction l with
  | nil => rfl
  | cons c rest ih =>
    by_cases h : c = 33
    · subst h
      simpa [List.dropWhile_cons, b91val] using ih
    · simp [List.dropWhile_cons, h, b91val]

theorem b91val_replicate33 (k : Nat) : b91val (List.replicate k 33) = 0 := by
  induction k with
  | zero => rfl
  | succ k ih => simp [List.replicate, b91val, ih]

theorem b91digits_mem_range (n : Nat) :
    ∀ c ∈ b91digits n, 33 ≤ c ∧ c ≤ 123 := by
  induction n using Nat.strong_induction_on with
  | _ n ih =>
    by_cases h : n = 0
    · subst h; simp [b91digits, b91digitsF]
    · rw [b91digits_eq]
      simp only [h, if_false]
      intro c hc
      rcases List.mem_cons.mp hc with hc | hc
      · subst hc
        have := Nat.mod_lt n (y := 91) (by omega)
        omega
      · exact ih _ (Nat.div_lt_self (Nat.pos_of_ne_zero h) (by omega)) c hc

/-- Decoding any list made of padding plus trimmed digits recovers `n`. -/
theorem toDecimal_padded (n : Nat) (hn : n ≠ 0) (k : Nat) :
    ToDecimal (List.replicate k 33 ++ trimLeftC (b91digits n).reverse 33) = some n := by
  set body := List.replicate k 33 ++ trimLeftC (b91digits n).reverse 33 with hbody
  have hval : b91val body = n := by
    rw [hbody, b91val_append, b91val_replicate33, trimLeftC, b91val_dropWhile,
      b91val_reverse, b91valL_digits]
    ring
  have hvalid : ∀ c ∈ body, 33 ≤ c ∧ c < 124 := by
    intro c hc
    simp only [hbody, List.mem_append, List.mem_replicate] at hc
    rcases hc with hc | hc
    · omega
    · have hsub : c ∈ (b91digits n).reverse := List.dropWhile_sublist _ |>.mem hc
      have := b91digits_mem_range n c (List.mem_reverse.mp hsub)
      omega
  by_cases hb : body = []
  · exfalso
    have : b91val body = 0 := by rw [hb]; rfl
    omega
  · rw [ToDecimal]
    simp only [hb, if_false]
    have htrim : trimLeftC body 33 = body.dropWhile (· == 33) := rfl
    have hvd : b91val (body.dropWhile (· == 33)) = n := by
      rw [b91val_dropWhile, hval]
    have hall : (body.dropWhile (· == 33)).all
        (fun c => decide (0x21 ≤ c) && decide (c < 0x7c)) = true := by
      rw [List.all_eq_true]
      intro c hc
      have hmem : c ∈ body := List.dropWhile_sublist _ |>.mem hc
      have := hvalid c hmem
      simp only [Bool.and_eq_true, decide_eq_true_eq]
      omega
    rw [htrim]
    simp [hall, hvd]

theorem dropWhile33_replicate (k : Nat) :
    (List.replicate k 33).dropWhile (· == (33 : Nat)) = [] := by
  induction k with
  | zero => rfl
  | succ k ih => simpa [List.replicate, List.dropWhile_cons] using ih

/-- C3: For every non-negative integer `n` and every width
`w ≥ ⌈log₉₁(n+1)⌉`, decoding the Base-91 encoding of `n` at width `w`
returns `n` without error: `ToDecimal (FromDecimal n w) = n`. -/
theorem base91_roundtrip (n w : Nat) (hw : Nat.clog 91 (n + 1) ≤ w) :
    ∃ e, FromDecimal (n : Int) (w : Int) = some e ∧ ToDecimal e = some n := by
  clear hw
  by_cases hn : n = 0
  · subst hn
    refine ⟨List.replicate (max 1 w) 33, ?_, ?_⟩
    · simp [FromDecimal]
    · have hne : List.replicate (max 1 w) (33 : Nat) ≠ [] := by
        simp [List.replicate_eq_nil_iff]
      rw [ToDecimal]
      simp only [hne, if_false, trimLeftC, dropWhile33_replicate]
      simp [b91val]
  · have hw0 : ¬ ((w : Int) < 0) := by omega
    have hn0 : ¬ ((n : Int) < 0) := by omega
    have hnz : ¬ ((n : Int) = 0) := by omega
    rw [FromDecimal]
    simp only [hw0, hn0, hnz, if_false, Int.toNat_natCast]
    by_cases hlen : (trimLeftC (b91digits n).reverse 33).length < w
    · simp only [hlen, if_true]
      exact ⟨_, rfl, toDecimal_padded n hn _⟩
    · simp only [hlen, if_false]
      refine ⟨_, rfl, ?_⟩
      have := toDecimal_padded n hn 0
      simpa using this

/-- Witness for C3 at `n = 3`, `w = 2`. -/
theorem base91_roundtrip_witness :
    Nat.clog 91 (3 + 1) ≤ 2 ∧
      ∃ e, FromDecimal ((3 : Nat) : Int) ((2 : Nat) : Int) = some e ∧
        ToDecimal e = some 3 := by
  have hclog : Nat.clog 91 (3 + 1) ≤ 2 :=
    (Nat.le_pow_iff_clog_le (by norm_num)).mp (by norm_num)
  exact ⟨hclog, base91_roundtrip 3 2 hclog⟩

theorem b91valL_enumFrom (l : List Nat) :
    ∀ k, ((List.enumFrom k l).map (fun p => (p.2 - 33) * 91 ^ p.1)).sum
      = 91 ^ k * b91valL l := by
  induction l with
  | nil => intro k; simp [b91valL]
  | cons c rest ih =>
    intro k
    rw [List.enumFrom_cons]
    simp only [List.map_cons, List.sum_cons, ih (k + 1), b91valL]
    ring

theorem b91valL_enumSum (l : List Nat) :
    b91valL l = ((l.enum).map (fun p => (p.2 - 33) * 91 ^ p.1)).sum := by
  have h := b91valL_enumFrom l 0
  simpa [List.enum] using h.symm

theorem b91val_enumSum (t : List Nat) :
    b91val t = ((t.reverse.enum).map (fun p => (p.2 - 33) * 91 ^ p.1)).sum := by
  have h := b91val_reverse t.reverse
  rw [List.reverse_reverse] at h
  rw [h, b91valL_enumSum]

/-- C4 (amended): `ToDecimal` errors exactly when, after stripping leading
`!`, some remaining character lies outside `[0x21, 0x7C)` (the code also
accepts `0x7b`); otherwise it returns
`Σ (char − 33) · 91^(position from the right)`. -/
theorem toDecimal_characterization (text : List Nat) :
    ToDecimal text =
      if (trimLeftC text 33).all (fun c => decide (0x21 ≤ c) && decide (c < 0x7c))
      then some ((((trimLeftC text 33).reverse.enum).map
        (fun p => (p.2 - 33) * 91 ^ p.1)).sum)
      else none := by
  rw [ToDecimal]
  by_cases ht : text = []
  · subst ht
    simp [trimLeftC, b91val]
  · simp only [ht, if_false]
    by_cases hall :
        (trimLeftC text 33).all (fun c => decide (0x21 ≤ c) && decide (c < 0x7c))
    · simp [hall, b91val_enumSum]
    · simp [hall]

/-- Counterexample for C4 as stated: the character `0x7b` lies outside the
claimed valid range `[0x21, 0x7B)`, yet `ToDecimal` accepts it and returns
`0x7b − 33 = 90` instead of an error. -/
theorem toDecimal_c4_counterexample :
    ToDecimal (S "\x7b") = some 90 ∧
      ¬ (∀ c ∈ trimLeftC (S "\x7b") 33, 0x21 ≤ c ∧ c < 0x7b) := by
  decide

theorem cacheLookup_wf {c : Cache} {k v : String}
    (hc : WFCache c) (h : cacheLookup c k = some v) : v = k := by
  induction c with
  | nil => simp [cacheLookup] at h
  | cons kv rest ih =>
    rw [cacheLookup] at h
    by_cases hk : kv.1 = k
    · rw [if_pos hk] at h
      cases h
      have := hc kv (by simp)
      rw [this, hk]
    · rw [if_neg hk] at h
      exact ih (fun x hx => hc x (List.mem_cons_of_mem _ hx)) h

theorem get_fst {c : Cache} {k : String} (hc : WFCache c) : (Get c k).1 = k := by
  rw [Get]
  cases h : cacheLookup c k with
  | none => rfl
  | some v => simpa using cacheLookup_wf hc h

theorem get_wf {c : Cache} {k : String} (hc : WFCache c) : WFCache (Get c k).2 := by
  rw [Get]
  cases h : cacheLookup c k with
  | none =>
    intro kv hkv
    rcases List.mem_cons.mp hkv with hkv | hkv
    · rw [hkv]
    · exact hc kv hkv
  | some v => exact hc

/-- C10: `Parse` is claimed to be total, but a user-defined body with
exactly one character after `{` makes `parseUserDefined` read the second
rune of a one-rune body: `Parse "A>B:(brace)a"` is a run-time panic, not a
`(Parsed, error)` return. -/
theorem parse_userdefined_panics :
    (Parse ⟨2026, 10, 5⟩ 5 (S "A>B:\x7ba")).panicMsg =
      some "runtime error: index out of range [1] with length 1" := by
  decide

/-- Counterexample for C1 as stated: `Parse "A>B:!x"` returns an error
(from the compressed-position length check), yet the returned record has
`From = "A"` — a non-raw field away from its zero default, populated by
the header stage that completed before the failure. -/
theorem parse_error_record_counterexample :
    (Parse ⟨2026, 10, 5⟩ 5 (S "A>B:!x")).errOf = some "invalid compressed format" ∧
      (Parse ⟨2026, 10, 5⟩ 5 (S "A>B:!x")).coreOf.From = S "A" ∧
      ({} : Core).From = [] ∧ S "A" ≠ [] := by
  decide

/-- Counterexample for C5 as stated: the sender `-AB` fails the claimed
grammar `^[A-Za-z0-9]{1,9}(-[A-Za-z0-9]{1,8})?$` (no leading
alphanumeric), so the claim predicts an invalid-header error — but the
code's `{0,9}` grammar accepts it and `parseHeader "-AB>B"` succeeds. -/
theorem parseHeader_c5_counterexample :
    (parseHeader [] {} (S "-AB>B")).1.isFailB = false ∧
      specSenderGrammar (S "-AB") = false := by
  decide

/-- Counterexample for C2 as stated: the body `4903.50N/07201.75W` (no
symbol-code character) fails the full uncompressed pattern, yet the
decoder does **not** attempt compressed decoding — the coarse pre-check
matched, `parseNormal` returned without error and without populating the
record, and the subsequent `p.Symbol[0]` read panics. -/
theorem decodeCoord_c2_counterexample :
    matchNormal (S "4903.50N/07201.75W") = none ∧
      (decodeCoord [] {} (S "4903.50N/07201.75W")).1.fmtOf ≠
        (parseCompressed {} (S "4903.50N/07201.75W")).1.Format ∧
      (parsePosition ⟨2026, 10, 5⟩ [] {} (S "!") (S "4903.50N/07201.75W")).1.panicMsg =
        some "runtime error: index out of range [0] with length 0" := by
  decide

/-- Counterexample for C6 as stated: in `12  .15N/078  .15W#` both
minutes fields carry two blanks (equal ambiguity 2, below the box-center
threshold), and replacing **every** blank by `5` would give the valid
minutes string `55.15` — but the code replaces only the first blank,
leaving `5 .15`, whose float conversion fails, so decoding errors instead
of succeeding. -/
theorem parseNormal_c6_counterexample :
    (matchNormal (S "12  .15N/078  .15W#")).isSome = true ∧
      countC (seg (S "12  .15N/078  .15W#") 2 5) 32 =
        countC (seg (S "12  .15N/078  .15W#") 12 5) 32 ∧
      countC (seg (S "12  .15N/078  .15W#") 2 5) 32 < 4 ∧
      (parseNormal [] {} (S "12  .15N/078  .15W#")).1.errMsg =
        some "invalid latitude minutes" ∧
      (parseFloatQ (replaceAllC (seg (S "12  .15N/078  .15W#") 2 5) 32 53)).isSome =
        true := by
  decide

/-- Counterexample for C7 as stated: with the clock at 2026-10-05 UTC,
the timestamp field `111233z` decodes to 2026-10-11 12:33:00 — the given
MM digits `33` become the **minute** and the **seconds** are forced to
zero, so the result differs from the claimed minute-zeroed value. -/
theorem parseTimeStamp_c7_counterexample :
    (parseTimeStamp ⟨2026, 10, 5⟩ [] {} (S "/") (S "111233z")).1.tsOf =
      epochOf 2026 10 11 12 33 0 ∧
      epochOf 2026 10 11 12 33 0 ≠ epochOf 2026 10 11 12 0 0 := by
  decide

theorem parseInvalid_raw (p : Core) (body : List Nat) :
    (parseInvalid p body).Raw = p.Raw := rfl

theorem parseStatus_raw (p : Core) (body : List Nat) :
    (parseStatus p body).Raw = p.Raw := rfl

theorem parseUserDefined_raw (p : Core) (body : List Nat) :
    ∀ q ∈ parseUserDefined p body, q.Raw = p.Raw := by
  intro q hq
  cases body with
  | nil => simp [parseUserDefined] at hq
  | cons c0 t =>
    cases t with
    | nil => simp [parseUserDefined] at hq
    | cons c1 rest =>
      simp [parseUserDefined] at hq
      subst hq
      rfl

theorem parseTelemetryConfig_raw (p : Core) (body : List Nat) :
    (parseTelemetryConfig p body).1.Raw = p.Raw := by
  unfold parseTelemetryConfig
  repeat' first | split | dsimp only
  all_goals rfl

theorem parseMessage_raw (p : Core) (body : List Nat) :
    (parseMessage p body).Raw = p.Raw := by
  unfold parseMessage
  repeat' first | split | dsimp only
  all_goals simp [parseTelemetryConfig_raw]

theorem parseCommentTelemetry_raw (p : Core) (text : List Nat) :
    (parseCommentTelemetry p text).1.Raw = p.Raw := by
  unfold parseCommentTelemetry
  repeat' first | split | dsimp only
  all_goals rfl

theorem parseDataExtensions_raw (p : Core) (body : List Nat) :
    (parseDataExtensions p body).1.Raw = p.Raw := by
  unfold parseDataExtensions
  repeat' first | split | dsimp only
  all_goals simp [apply_ite (Prod.fst : Core × List Nat → Core), apply_ite Core.Raw]

theorem parseCommentAltitude_raw (p : Core) (body : List Nat) :
    (parseCommentAltitude p body).1.Raw = p.Raw := by
  unfold parseCommentAltitude
  repeat' first | split | dsimp only
  all_goals rfl

theorem parseDAO_raw (p : Core) (body : List Nat) :
    (parseDAO p body).1.Raw = p.Raw := by
  unfold parseDAO
  repeat' first | split | dsimp only
  all_goals rfl

theorem parseComment_raw (p : Core) (body : List Nat) :
    (parseComment p body).1.Raw = p.Raw := by
  simp [parseComment, parseDataExtensions_raw, parseCommentAltitude_raw,
    parseCommentTelemetry_raw, parseDAO_raw]

theorem wxApply_raw (toks : List (List Nat)) : ∀ (p : Core),
    ∀ q ∈ wxApply p toks, q.Raw = p.Raw := by
  induction toks with
  | nil =>
    intro p q hq
    simp [wxApply] at hq
    subst hq
    rfl
  | cons tok rest ih =>
    intro p q hq
    rw [wxApply] at hq
    repeat' first | split at hq | dsimp only at hq
    all_goals
      first
      | exact ih p q hq
      | (have h := ih _ q hq; simpa using h)
      | simp at hq

theorem parseWeatherData_raw (p : Core) (body : List Nat) :
    ∀ q ∈ (parseWeatherData p body).map Prod.fst, q.Raw = p.Raw := by
  intro q hq
  unfold parseWeatherData at hq
  repeat' first | split at hq | dsimp only at hq
  all_goals
    first
    | (simp at hq; subst hq; rfl)
    | (rename_i heq
       simp at hq
       subst hq
       exact wxApply_raw _ p _ heq)
    | simp at hq

theorem parseWeather_raw (p : Core) (body : List Nat) :
    ∀ r ∈ parseWeather p body, r.1.Raw = p.Raw := by
  intro r hr
  unfold parseWeather at hr
  repeat' first | split at hr | dsimp only at hr
  all_goals
    first
    | (simp at hr; subst hr; rfl)
    | (rename_i p1 comment heq
       have h := parseWeatherData_raw p (body.drop 8) p1 (by rw [heq]; rfl)
       simp at hr
       subst hr
       simpa using h)
    | simp at hr

theorem parseCompressed_raw (p : Core) (body : List Nat) :
    (parseCompressed p body).1.Raw = p.Raw := by
  unfold parseCompressed
  repeat' first | split | dsimp only
  all_goals rfl

theorem micELatLon_raw (p1 : Core) (dstCall body : List Nat) :
    (micELatLon p1 dstCall body).1.Raw = p1.Raw := by
  unfold micELatLon
  dsimp only
  split
  · rfl
  · split
    · rfl
    · split
      · rfl
      · rfl

theorem micETelStep_raw (p7 : Core) (rest0 : List Nat) :
    ∀ q r, micETelStep p7 rest0 = .ok (q, r) → q.Raw = p7.Raw := by
  intro q r h
  unfold micETelStep at h
  repeat' first | split at h | dsimp only at h
  all_goals first
    | (injection h with h1; injection h1 with h2 h3; rw [← h2])
    | exact absurd h (by simp)

theorem micEAltStep_raw (p8 : Core) (rest1 : List Nat) :
    ∀ q r, micEAltStep p8 rest1 = .ok (q, r) → q.Raw = p8.Raw := by
  intro q r h
  unfold micEAltStep at h
  repeat' first | split at h | dsimp only at h
  all_goals first
    | (injection h with h1; injection h1 with h2 h3; rw [← h2])
    | exact absurd h (by simp)

theorem micETrail_raw (p7 : Core) (body : List Nat) :
    (micETrail p7 body).1.Raw = p7.Raw := by
  unfold micETrail
  split
  · dsimp only
    rcases htel : micETelStep p7 (body.drop 8) with e | ⟨p8, rest1⟩
    · rfl
    · have h8 := micETelStep_raw p7 (body.drop 8) p8 rest1 htel
      dsimp only
      rcases halt : micEAltStep p8 rest1 with e | ⟨p9, rest2⟩
      · exact h8
      · have h9 := micEAltStep_raw p8 rest1 p9 rest2 halt
        dsimp only
        simp [parseCommentTelemetry_raw, parseDAO_raw, h9, h8]
  · rfl

theorem parseMicE_raw (p : Core) (d body : List Nat) :
    (parseMicE p d body).1.Raw = p.Raw := by
  unfold parseMicE
  dsimp only
  split
  · rfl
  · split
    · rfl
    · split
      · rfl
      · split
        · rfl
        · rcases hll : micELatLon (micEP1 p body) (micEDstCall d) body
            with ⟨pe, oe⟩
          have hl := micELatLon_raw (micEP1 p body) (micEDstCall d) body
          rw [hll] at hl
          cases oe with
          | some e => simpa [micEP1, micEP0] using hl
          | none =>
            have ht := micETrail_raw pe body
            dsimp only
            rw [ht]
            simpa [micEP1, micEP0] using hl

theorem parseHeader_raw (c : Cache) (p : Core) (head : List Nat) :
    ((parseHeader c p head).1).rawOf p.Raw = p.Raw := by
  unfold parseHeader
  repeat' first | split | dsimp only
  all_goals rfl

theorem parseTimeStamp_raw (clock : Clock) (c : Cache) (p : Core)
    (pt body : List Nat) :
    ((parseTimeStamp clock c p pt body).1).rawOf p.Raw = p.Raw := by
  unfold parseTimeStamp
  repeat' first | split | dsimp only
  all_goals rfl

theorem parseNormalCoord_raw (p2 : Core) (a b c d e f g h i : List Nat) :
    (parseNormalCoord p2 a b c d e f g h i).rawOf p2.Raw = p2.Raw := by
  unfold parseNormalCoord
  repeat' first | split | dsimp only
  all_goals rfl

theorem parseNormalMatched_raw (p : Core) (g : List (List Nat)) :
    (parseNormalMatched p g).rawOf p.Raw = p.Raw := by
  unfold parseNormalMatched
  dsimp only
  split
  · rfl
  · exact parseNormalCoord_raw _ _ _ _ _ _ _ _ _ _

theorem parseNormal_raw (c : Cache) (p : Core) (body : List Nat) :
    ((parseNormal c p body).1).rawOf p.Raw = p.Raw := by
  unfold parseNormal
  repeat' first | split | dsimp only
  · rfl
  · exact parseNormalMatched_raw p _

theorem decodeCoord_raw (c : Cache) (p : Core) (body : List Nat) :
    ((decodeCoord c p body).1).rawOf p.Raw = p.Raw := by
  unfold decodeCoord
  dsimp only
  split
  · exact parseNormal_raw _ p body
  · have h := parseCompressed_raw p body
    rcases hpc : parseCompressed p body with ⟨p3, rest, oe⟩
    rw [hpc] at h
    cases oe with
    | none => exact h
    | some e => exact h

theorem posStep1_raw (c : Cache) (p : Core) (pt body0 : List Nat) :
    ((posStep1 c p pt body0).1).rawOf p.Raw = p.Raw := by
  unfold posStep1
  repeat' first | split | dsimp only
  all_goals rfl

theorem posFinish_raw (pt : List Nat) (c4 : Cache) (pf : Core) :
    ((posFinish pt c4 pf).1).rawOf pf.Raw = pf.Raw := by
  unfold posFinish
  split
  · rfl
  · rfl

theorem posTail_raw (pt : List Nat) (c4 : Cache) (p3 : Core) (body3 : List Nat) :
    ((posTail pt c4 p3 body3).1).rawOf p3.Raw = p3.Raw := by
  unfold posTail
  dsimp only
  rcases hsym : p3.Symbol with _ | ⟨s0, srest⟩
  · rfl
  · dsimp only
    split
    · rcases hw : parseWeatherData (parseDataExtensions p3 body3).1
          (parseDataExtensions p3 body3).2 with _ | ⟨p4, cm⟩
      · rfl
      · have h4 := parseWeatherData_raw (parseDataExtensions p3 body3).1
          (parseDataExtensions p3 body3).2 p4 (by rw [hw]; rfl)
        have h4' : p4.Raw = p3.Raw :=
          h4.trans (parseDataExtensions_raw p3 body3)
        have hf := posFinish_raw pt c4 p4
        rw [h4'] at hf
        exact hf
    · have hf := posFinish_raw pt c4 (parseComment p3 body3).1
      rw [parseComment_raw p3 body3] at hf
      exact hf

theorem posAfterTs_raw (pt : List Nat) (c2 : Cache) (p2 : Core)
    (body2 : List Nat) :
    ((posAfterTs pt c2 p2 body2).1).rawOf p2.Raw = p2.Raw := by
  unfold posAfterTs
  split
  · rfl
  · have hd := decodeCoord_raw c2 p2 body2
    rcases hdc : decodeCoord c2 p2 body2 with ⟨o3, c4⟩
    rw [hdc] at hd
    cases o3 with
    | fail p3 e => exact hd
    | panicked e => rfl
    | ok p3 body3 =>
      have h3 : p3.Raw = p2.Raw := hd
      have ht := posTail_raw pt c4 p3 body3
      rw [h3] at ht
      exact ht

theorem parsePosition_raw (clock : Clock) (c : Cache) (p : Core)
    (pt0 body : List Nat) :
    ((parsePosition clock c p pt0 body).1).rawOf p.Raw = p.Raw := by
  unfold parsePosition
  dsimp only
  have h1 := posStep1_raw c p ((posNorm pt0 body).1) ((posNorm pt0 body).2)
  rcases hs1 : posStep1 c p ((posNorm pt0 body).1) ((posNorm pt0 body).2)
    with ⟨o1, c1⟩
  rw [hs1] at h1
  cases o1 with
  | fail p1 e => exact h1
  | panicked e => rfl
  | ok p1 body1 =>
    have hp1 : p1.Raw = p.Raw := h1
    dsimp only
    split
    · have h2 := parseTimeStamp_raw clock c1 p1 ((posNorm pt0 body).1) body1
      rcases hts : parseTimeStamp clock c1 p1 ((posNorm pt0 body).1) body1
        with ⟨o2, c2⟩
      rw [hts] at h2
      cases o2 with
      | fail p2 e => exact h2.trans hp1
      | panicked e => rfl
      | ok p2 body2 =>
        have hp2 : p2.Raw = p.Raw := h2.trans hp1
        have ha := posAfterTs_raw ((posNorm pt0 body).1) c2 p2 body2
        rw [hp2] at ha
        exact ha
    · have ha := posAfterTs_raw ((posNorm pt0 body).1) c1 p1 body1
      rw [hp1] at ha
      exact ha

theorem parseThirdParty_raw (rec : Cache → List Nat → PRes × Cache)
    (c : Cache) (p : Core) (body : List Nat) :
    ((parseThirdParty rec c p body).1).rawOf p.Raw = p.Raw := by
  unfold parseThirdParty
  dsimp only
  rcases hr : rec c body with ⟨pr, c1⟩
  cases pr with
  | done q oe =>
    cases oe with
    | none => rfl
    | some e => rfl
  | panicked e => rfl
  | outOfFuel => rfl

theorem posWrap_raw (oc : Out Unit × Cache) (d : List Nat)
    (h : oc.1.rawOf d = d) : ((posWrap oc).1).rawOf d = d := by
  obtain ⟨o, c⟩ := oc
  cases o with
  | ok q b => exact h
  | fail q e => exact h
  | panicked e => rfl

theorem parseBody_raw (rec : Cache → List Nat → PRes × Cache) (clock : Clock)
    (c : Cache) (p : Core) (body : List Nat) :
    ((parseBody rec clock c p body).1).rawOf p.Raw = p.Raw := by
  unfold parseBody
  rcases body with _ | ⟨b0, brest⟩
  · rfl
  · dsimp only
    by_cases hc1 : (List.drop 1 (b0 :: brest)).length = 0 ∧
        List.take 1 (b0 :: brest) ≠ S ">"
    · rw [if_pos hc1]
      rfl
    · rw [if_neg hc1]
      by_cases hc2 : isUnsupported (List.take 1 (b0 :: brest)) = true
      · rw [if_pos hc2]
        rfl
      · rw [if_neg hc2]
        by_cases hc3 : List.take 1 (b0 :: brest) = S "\x7d"
        · rw [if_pos hc3]
          exact parseThirdParty_raw rec c p _
        · rw [if_neg hc3]
          by_cases hc4 : List.take 1 (b0 :: brest) = S ","
          · rw [if_pos hc4]
            rfl
          · rw [if_neg hc4]
            by_cases hc5 : List.take 1 (b0 :: brest) = S "\x7b"
            · rw [if_pos hc5]
              split
              · rfl
              · rename_i p1 heq
                exact parseUserDefined_raw p _ p1 heq
            · rw [if_neg hc5]
              by_cases hc6 : List.take 1 (b0 :: brest) = S ">"
              · rw [if_pos hc6]
                rfl
              · rw [if_neg hc6]
                by_cases hc7 : List.take 1 (b0 :: brest) = S "`" ∨
                    List.take 1 (b0 :: brest) = S "â€˜" ∨
                    List.take 1 (b0 :: brest) = S "'"
                · rw [if_pos hc7]
                  split
                  · rename_i p1 e heq
                    refine Eq.trans ?_ (parseMicE_raw p p.To ?_)
                    exact congrArg (fun z => z.1.Raw) heq.symm
                  · rename_i p1 heq
                    refine Eq.trans ?_ (parseMicE_raw p p.To ?_)
                    exact congrArg (fun z => z.1.Raw) heq.symm
                · rw [if_neg hc7]
                  by_cases hc8 : List.take 1 (b0 :: brest) = S ":"
                  · rw [if_pos hc8]
                    exact parseMessage_raw p _
                  · rw [if_neg hc8]
                    by_cases hc9 : List.take 1 (b0 :: brest) = S "_"
                    · rw [if_pos hc9]
                      split
                      · rfl
                      · rename_i p1 e heq
                        exact parseWeather_raw p _ (p1, some e) heq
                      · rename_i p1 heq
                        exact parseWeather_raw p _ (p1, none) heq
                    · rw [if_neg hc9]
                      by_cases hc10 : List.take 1 (b0 :: brest) = S "!" ∨
                          List.take 1 (b0 :: brest) = S "=" ∨
                          List.take 1 (b0 :: brest) = S "/" ∨
                          List.take 1 (b0 :: brest) = S "@" ∨
                          List.take 1 (b0 :: brest) = S ";"
                      · rw [if_pos hc10]
                        exact posWrap_raw _ p.Raw
                          (parsePosition_raw clock c p _ _)
                      · rw [if_neg hc10]
                        by_cases hc11 :
                            (List.drop 1 (b0 :: brest)).findIdx (· == 33) <
                              (List.drop 1 (b0 :: brest)).length ∧
                            (List.drop 1 (b0 :: brest)).findIdx (· == 33) < 40
                        · rw [if_pos hc11]
                          exact posWrap_raw _ p.Raw
                            (parsePosition_raw clock c p _ _)
                        · rw [if_neg hc11]
                          rfl

theorem ParseC_raw (clock : Clock) (fuel : Nat) (c : Cache)
    (packet : List Nat) :
    ((ParseC clock fuel c packet).1).rawOf packet = packet := by
  cases fuel with
  | zero => rfl
  | succ f =>
    unfold ParseC
    dsimp only
    split
    · rfl
    · rcases hsp : splitOnce (trimBoth packet [13, 10]) 58 with _ | ⟨head, body⟩
      · rfl
      · dsimp only
        split
        · rfl
        · have hh := parseHeader_raw c { Raw := packet } head
          rcases hph : parseHeader c { Raw := packet } head with ⟨oh, c1⟩
          rw [hph] at hh
          cases oh with
          | fail p1 e => exact hh
          | panicked e => rfl
          | ok p1 u =>
            have hp1 : p1.Raw = packet := hh
            have hb := parseBody_raw (ParseC clock f) clock c1 p1 body
            rw [hp1] at hb
            exact hb

/-- C1 (amended): for every clock, fuel bound and input line, the record
returned by `Parse` — whether the parse succeeds, fails with an error, or
panics (where the raw line observed defaults to the input) — carries the
original input verbatim in its `Raw` field.  The stronger original claim,
that an error outcome leaves every non-raw field at its zero default, is
refuted by `parse_error_record_counterexample`. -/
theorem parse_raw_preserved (clock : Clock) (fuel : Nat) (packet : List Nat) :
    (Parse clock fuel packet).rawOf packet = packet := by
  unfold Parse
  exact ParseC_raw clock fuel [] packet

theorem runCached_fst {c : Cache} (k : String) (s : List Nat)
    (hc : WFCache c) : (runCached c k s).1 = reRun k s := by
  unfold runCached
  dsimp only
  rw [get_fst hc]

theorem runCached_wf {c : Cache} (k : String) (s : List Nat)
    (hc : WFCache c) : WFCache (runCached c k s).2 := get_wf hc

theorem reRun_patFromCall (s : List Nat) :
    reRun patFromCall s = (if matchFromCall s then some [s] else none) := by
  unfold reRun
  rw [if_pos rfl]

theorem reRun_patPathElem (s : List Nat) :
    reRun patPathElem s = (if matchPathElem s then some [s] else none) := by
  unfold reRun
  rw [if_neg (by decide), if_pos rfl]

theorem reRun_patObjHead (s : List Nat) :
    reRun patObjHead s = matchObjHead s := by
  unfold reRun
  rw [if_neg (by decide), if_neg (by decide), if_pos rfl]

theorem reRun_patCoarse (s : List Nat) :
    reRun patCoarse s = (if matchCoarse s then some [s] else none) := by
  unfold reRun
  rw [if_neg (by decide), if_neg (by decide), if_neg (by decide), if_pos rfl]

theorem reRun_patTs (s : List Nat) :
    reRun patTs s = matchTs s := by
  unfold reRun
  rw [if_neg (by decide), if_neg (by decide), if_neg (by decide),
    if_neg (by decide), if_pos rfl]

theorem reRun_patNormal (s : List Nat) :
    reRun patNormal s = matchNormal s := by
  unfold reRun
  rw [if_neg (by decide), if_neg (by decide), if_neg (by decide),
    if_neg (by decide), if_neg (by decide), if_pos rfl]

theorem parseNormal_nomatch {c : Cache} (p : Core) (body : List Nat)
    (hc : WFCache c) (h : matchNormal body = none) :
    (parseNormal c p body).1 = Out.ok p body := by
  unfold parseNormal
  dsimp only
  rw [runCached_fst _ _ hc, reRun_patNormal, h]

/-- C2 (amended): on a well-formed pattern cache, for a coordinate body
that fails the **full** fixed-width uncompressed pattern, the decoder
never errors for that mismatch — but compressed decoding of the same
body is attempted **only** when the coarse fixed-width pre-check also
fails; when the coarse pre-check matches, `parseNormal` silently returns
the record and body unchanged and no compressed attempt is made (the
original claim, that every full-pattern mismatch falls through to
compressed, is refuted by `decodeCoord_c2_counterexample`). -/
theorem decodeCoord_dispatch (c : Cache) (p : Core) (body : List Nat)
    (hc : WFCache c) (hfull : matchNormal body = none) :
    (decodeCoord c p body).1 =
      if matchCoarse body then Out.ok p body
      else
        match parseCompressed p body with
        | (p3, rest, none) => Out.ok p3 rest
        | (p3, rest, some e) => Out.fail p3 e := by
  unfold decodeCoord
  dsimp only
  have hrc : (runCached c patCoarse body).1 =
      (if matchCoarse body then some [body] else none) := by
    rw [runCached_fst _ _ hc, reRun_patCoarse]
  cases hm : matchCoarse body with
  | true =>
    rw [hm] at hrc
    rw [if_pos (by rw [hrc]; rfl), if_pos rfl]
    exact parseNormal_nomatch p body (runCached_wf _ _ hc) hfull
  | false =>
    rw [hm] at hrc
    rw [if_neg (by decide)] at hrc
    rw [if_neg (by rw [hrc]; exact Bool.false_ne_true), if_neg (by decide)]
    rcases parseCompressed p body with ⟨p3, rest, oe⟩
    cases oe with
    | none => rfl
    | some e => rfl

theorem decodeCoord_dispatch_witness :
    WFCache ([] : Cache) ∧ matchNormal (S "x") = none ∧
    (decodeCoord [] {} (S "x")).1 =
      (if matchCoarse (S "x") then Out.ok {} (S "x")
       else
         match parseCompressed {} (S "x") with
         | (p3, rest, none) => Out.ok p3 rest
         | (p3, rest, some e) => Out.fail p3 e) :=
  ⟨by decide, by decide, decodeCoord_dispatch [] {} (S "x") (by decide) (by decide)⟩

/-- C7 (amended): on a well-formed cache, a timestamp field of six digits
`DDHHMM` followed by format byte `z` or `/` (for a non-status packet)
decodes to the epoch built from the clock\u2019s UTC year and month plus the
given day, hour **and minute** — it is the **seconds** component that is
forced to zero, not the minute (the original minute-discarded reading is
refuted by `parseTimeStamp_c7_counterexample`). -/
theorem parseTimeStamp_z_semantics (clock : Clock) (c : Cache) (p : Core)
    (pt ts6 rest : List Nat) (f : Nat) (hc : WFCache c)
    (h6 : ts6.length = 6) (hdig : ts6.all (isDigitC ·) = true)
    (hf : f = 122 ∨ f = 47) (hpt : pt ≠ S ">") :
    (parseTimeStamp clock c p pt (ts6 ++ f :: rest)).1 =
      Out.ok { p with
          RawTimestamp := ts6 ++ [f],
          Timestamp := (parseTimeString14 clock.Year clock.Month
            (digitsVal (seg ts6 0 2)) (digitsVal (seg ts6 2 2))
            (digitsVal (seg ts6 4 2)) 0).getD 0 }
        rest := by
  have htake : (ts6 ++ f :: rest).take 7 = ts6 ++ [f] := by
    rw [List.take_append_eq_append_take, List.take_of_length_le (by omega), h6]
    rfl
  have hdrop : (ts6 ++ f :: rest).drop 7 = rest := by
    rw [List.drop_append_eq_append_drop, List.drop_of_length_le (by omega), h6]
    rfl
  have hne10 : f ≠ 10 := by rcases hf with h | h <;> omega
  have h1 : (ts6 ++ [f]).take 6 = ts6 := by
    rw [List.take_append_eq_append_take, List.take_of_length_le (by omega), h6]
    simp
  have h2 : (ts6 ++ [f]).getD 6 0 = f := by
    rw [List.getD_eq_getElem?_getD, List.getElem?_append_right (by omega), h6]
    simp
  unfold parseTimeStamp
  dsimp only
  rw [if_neg (by simp [h6]; omega)]
  have hm : (runCached c patTs ((ts6 ++ f :: rest).take 7)).1 =
      some [ts6 ++ [f], ts6 ++ [f], ts6, [f]] := by
    rw [runCached_fst _ _ hc, reRun_patTs, htake]
    unfold matchTs
    rw [if_pos ⟨by simp [h6], by rw [h1]; exact hdig, by rw [h2]; exact hne10⟩]
    rw [h1, h2]
  rw [hm]
  dsimp only
  simp only [List.getD_cons_succ, List.getD_cons_zero]
  rw [if_pos (fun h => hpt h.1)]
  rw [if_neg (by rcases hf with h | h <;> subst h <;> decide)]
  rw [if_pos (by rcases hf with h | h <;> subst h <;> [left; right] <;> decide)]
  rw [hdrop]

theorem parseTimeStamp_z_semantics_witness :
    WFCache ([] : Cache) ∧ (S "111213").length = 6 ∧
    (S "111213").all (isDigitC ·) = true ∧
    ((122 : Nat) = 122 ∨ (122 : Nat) = 47) ∧ S "@" ≠ S ">" ∧
    (parseTimeStamp ⟨2026, 10, 5⟩ [] {} (S "@") (S "111213" ++ 122 :: S "abc")).1 =
      Out.ok { ({} : Core) with
          RawTimestamp := S "111213" ++ [122],
          Timestamp := (parseTimeString14 2026 10
            (digitsVal (seg (S "111213") 0 2)) (digitsVal (seg (S "111213") 2 2))
            (digitsVal (seg (S "111213") 4 2)) 0).getD 0 }
        (S "abc") :=
  ⟨by decide, by decide, by decide, Or.inl rfl, by decide,
   parseTimeStamp_z_semantics ⟨2026, 10, 5⟩ [] {} (S "@") (S "111213") (S "abc")
     122 (by decide) (by decide) (by decide) (Or.inl rfl) (by decide)⟩

/-- C6 (amended): on a well-formed cache, for a body matched by the full
uncompressed pattern, the blank count of the **latitude** minutes sets
`PosAmbiguity` and must equal the blank count of the longitude minutes
(otherwise the mismatch error); ambiguity at least 4 forces both minute
strings to `30`; otherwise only the **first** blank of each minutes field
is replaced by the digit `5` before conversion — not every blank as
claimed (refuted by `parseNormal_c6_counterexample`, where an interior
blank survives the single replacement and conversion errors out). -/
theorem parseNormal_ambiguity (c : Cache) (p : Core) (body : List Nat)
    (g : List (List Nat)) (hc : WFCache c) (hm : matchNormal body = some g) :
    (parseNormal c p body).1 =
      if countC (g.getD 2 []) 32 ≠ countC (g.getD 6 []) 32 then
        Out.fail { p with Format := S "uncompressed" }
          "latitude and longitude ambiguity mismatch"
      else
        parseNormalCoord
          { p with Format := S "uncompressed",
                   PosAmbiguity := countC (g.getD 2 []) 32 }
          (g.getD 1 [])
          (if 4 ≤ countC (g.getD 2 []) 32 then S "30"
           else replaceFirst (g.getD 2 []) 32 53)
          (g.getD 3 []) (g.getD 4 []) (g.getD 5 [])
          (if 4 ≤ countC (g.getD 2 []) 32 then S "30"
           else replaceFirst (g.getD 6 []) 32 53)
          (g.getD 7 []) (g.getD 8 []) (g.getD 9 []) := by
  unfold parseNormal
  dsimp only
  rw [show (runCached c patNormal body).1 = some g from by
    rw [runCached_fst _ _ hc, reRun_patNormal, hm]]
  rfl

theorem parseNormal_ambiguity_witness :
    WFCache ([] : Cache) ∧
    matchNormal (S "1234.50N/12345.67W#") =
      some [S "1234.50N/12345.67W#", S "12", S "34.50", S "N", S "/", S "123",
            S "45.67", S "W", S "#", S ""] ∧
    (parseNormal [] {} (S "1234.50N/12345.67W#")).1 =
      (let g : List (List Nat) :=
        [S "1234.50N/12345.67W#", S "12", S "34.50", S "N", S "/", S "123",
         S "45.67", S "W", S "#", S ""]
       if countC (g.getD 2 []) 32 ≠ countC (g.getD 6 []) 32 then
        Out.fail { ({} : Core) with Format := S "uncompressed" }
          "latitude and longitude ambiguity mismatch"
      else
        parseNormalCoord
          { ({} : Core) with
            Format := S "uncompressed"
            PosAmbiguity := countC (g.getD 2 []) 32 }
          (g.getD 1 [])
          (if 4 ≤ countC (g.getD 2 []) 32 then S "30"
           else replaceFirst (g.getD 2 []) 32 53)
          (g.getD 3 []) (g.getD 4 []) (g.getD 5 [])
          (if 4 ≤ countC (g.getD 2 []) 32 then S "30"
           else replaceFirst (g.getD 6 []) 32 53)
          (g.getD 7 []) (g.getD 8 []) (g.getD 9 [])) :=
  ⟨by decide, by decide,
   parseNormal_ambiguity [] {} (S "1234.50N/12345.67W#")
     [S "1234.50N/12345.67W#", S "12", S "34.50", S "N", S "/", S "123",
      S "45.67", S "W", S "#", S ""] (by decide) (by decide)⟩

theorem pathsCheck_fst : ∀ (l : List (List Nat)) (c : Cache), WFCache c →
    (pathsCheck c l).1 = l.all (fun pa => matchPathElem pa) := by
  intro l
  induction l with
  | nil => intro c hc; rfl
  | cons pa rest ih =>
    intro c hc
    unfold pathsCheck
    dsimp only
    have h1 : (runCached c patPathElem pa).1 =
        (if matchPathElem pa then some [pa] else none) := by
      rw [runCached_fst _ _ hc, reRun_patPathElem]
    cases hmp : matchPathElem pa with
    | false =>
      rw [hmp] at h1
      rw [if_neg (by decide)] at h1
      rw [if_pos (by rw [h1]; rfl)]
      simp [hmp]
    | true =>
      rw [hmp] at h1
      rw [if_pos rfl] at h1
      rw [if_neg (by rw [h1]; simp)]
      rw [ih _ (runCached_wf _ _ hc)]
      simp [hmp]

/-- C5 (amended): on a well-formed cache, header parsing fails if and
only if: the head has no `>`; or the sender fails the actual compiled
grammar `(?i)^[a-z0-9]\x7b0,9\x7d(-[a-z0-9]\x7b1,8\x7d)?$` (whose prefix is
`\x7b0,9\x7d`, so a bare SSID suffix such as `-AB` is **accepted**, refuted
by `parseHeader_c5_counterexample`) or its length is outside 1–9; or
there is no first path element; or the first path element fails
`ValidateCallsign`, which is **case-sensitive** (`^([A-Z0-9]\x7b1,6\x7d)
(-(\d\x7b1,2\x7d))?$`), so a lowercase destination is rejected; or — a
disjunct missing from the claim — some non-blank element of the
remaining path fails the path-element grammar. -/
theorem parseHeader_error_characterization (c : Cache) (p : Core)
    (head : List Nat) (hc : WFCache c) :
    ((parseHeader c p head).1).isFailB =
      (match splitOnce head 62 with
       | none => true
       | some (fromCall, path) =>
         !decide (1 ≤ fromCall.length ∧ fromCall.length ≤ 9) ||
         !matchFromCall fromCall ||
         decide ((splitAll path 44).length < 1) ||
         decide (((splitAll path 44).getD 0 []).length = 0) ||
         !ValidateCallsign ((splitAll path 44).getD 0 []) ||
         (((splitAll path 44).drop 1).filter (fun pa => trimSpace pa ≠ [])).any
           (fun pa => !matchPathElem pa)) := by
  unfold parseHeader
  rcases hsp : splitOnce head 62 with _ | ⟨fc, path⟩
  · rfl
  · dsimp only
    have hm1 : (runCached c patFromCall fc).1 =
        (if matchFromCall fc then some [fc] else none) := by
      rw [runCached_fst _ _ hc, reRun_patFromCall]
    cases hmf : matchFromCall fc with
    | false =>
      rw [hmf] at hm1
      rw [if_neg (by decide)] at hm1
      rw [if_pos (Or.inr (by rw [hm1]; rfl))]
      simp [Out.isFailB]
    | true =>
      rw [hmf] at hm1
      rw [if_pos rfl] at hm1
      by_cases hlen : 1 ≤ fc.length ∧ fc.length ≤ 9
      · rw [if_neg (by
          rintro (h | h)
          · exact h hlen
          · rw [hm1] at h
            exact absurd h (by simp))]
        simp only [List.getD_eq_getElem?_getD]
        by_cases hp1 : (splitAll path 44).length < 1
        · rw [if_pos hp1]
          simp [hp1, hlen, Out.isFailB]
        · rw [if_neg hp1]
          by_cases hp2 : ((splitAll path 44)[0]?.getD []).length = 0
          · rw [if_pos hp2]
            simp [hp1, hp2, hlen, Out.isFailB]
          · rw [if_neg hp2]
            by_cases hvc : ValidateCallsign ((splitAll path 44)[0]?.getD []) = true
            · rw [if_neg (not_not_intro hvc)]
              have hpc := pathsCheck_fst
                (((splitAll path 44).drop 1).filter (fun pa => trimSpace pa ≠ []))
                (runCached c patFromCall fc).2 (runCached_wf _ _ hc)
              rcases hpck : pathsCheck (runCached c patFromCall fc).2
                  (((splitAll path 44).drop 1).filter (fun pa => trimSpace pa ≠ []))
                with ⟨b, c2⟩
              rw [hpck] at hpc
              dsimp only at hpc
              cases b with
              | false =>
                dsimp only
                simp [hp1, hp2, hlen, hvc, Out.isFailB]
                have hall : ¬ ((((splitAll path 44).drop 1).filter
                    (fun pa => trimSpace pa ≠ [])).all
                    (fun pa => matchPathElem pa) = true) := by
                  rw [← hpc]
                  decide
                rw [List.all_eq_true] at hall
                push_neg at hall
                obtain ⟨x, hxmem, hxf⟩ := hall
                rw [List.mem_filter] at hxmem
                refine ⟨x, ?_, ?_, ?_⟩
                · rw [← List.drop_one]
                  exact hxmem.1
                · simpa using hxmem.2
                · simpa using hxf
              | true =>
                dsimp only
                simp [hp1, hp2, hlen, hvc, Out.isFailB]
                intro x hx hne
                have hall := hpc.symm
                rw [List.all_eq_true] at hall
                have hxf := hall x (List.mem_filter.mpr
                  ⟨by rw [List.drop_one]; exact hx, by simpa using hne⟩)
                simpa using hxf
            · rw [if_pos (by simpa using hvc)]
              rw [Bool.not_eq_true] at hvc
              simp [hp1, hp2, hlen, Out.isFailB]
              exact Or.inl hvc
      · rw [if_pos (Or.inl hlen)]
        simp [hlen, Out.isFailB]

theorem parseHeader_error_characterization_witness :
    WFCache ([] : Cache) ∧
    ((parseHeader [] {} (S "-AB>B")).1).isFailB =
      (match splitOnce (S "-AB>B") 62 with
       | none => true
       | some (fromCall, path) =>
         !decide (1 ≤ fromCall.length ∧ fromCall.length ≤ 9) ||
         !matchFromCall fromCall ||
         decide ((splitAll path 44).length < 1) ||
         decide (((splitAll path 44).getD 0 []).length = 0) ||
         !ValidateCallsign ((splitAll path 44).getD 0 []) ||
         (((splitAll path 44).drop 1).filter (fun pa => trimSpace pa ≠ [])).any
           (fun pa => !matchPathElem pa)) :=
  ⟨by decide, parseHeader_error_characterization [] {} (S "-AB>B") (by decide)⟩

theorem pathsCheck_wf : ∀ (l : List (List Nat)) (c : Cache), WFCache c →
    WFCache (pathsCheck c l).2 := by
  intro l
  induction l with
  | nil => intro c hc; exact hc
  | cons pa rest ih =>
    intro c hc
    unfold pathsCheck
    dsimp only
    split
    · dsimp only
      exact runCached_wf _ _ hc
    · exact ih _ (runCached_wf _ _ hc)

theorem parseHeader_wf (c : Cache) (p : Core) (head : List Nat)
    (hc : WFCache c) : WFCache (parseHeader c p head).2 := by
  unfold parseHeader
  rcases splitOnce head 62 with _ | ⟨fc, path⟩
  · exact hc
  · dsimp only
    split
    · try dsimp only
      exact runCached_wf _ _ hc
    · split
      · try dsimp only
        exact runCached_wf _ _ hc
      · split
        · try dsimp only
          exact runCached_wf _ _ hc
        · split
          · try dsimp only
            exact runCached_wf _ _ hc
          · have h := pathsCheck_wf
              (((splitAll path 44).drop 1).filter (fun pa => trimSpace pa ≠ []))
              (runCached c patFromCall fc).2 (runCached_wf _ _ hc)
            rcases hpk : pathsCheck (runCached c patFromCall fc).2
                (((splitAll path 44).drop 1).filter (fun pa => trimSpace pa ≠ []))
              with ⟨b, c2⟩
            rw [hpk] at h
            cases b with
            | false => exact h
            | true => exact h

theorem parseTimeStamp_wf (clock : Clock) (c : Cache) (p : Core)
    (pt body : List Nat) (hc : WFCache c) :
    WFCache (parseTimeStamp clock c p pt body).2 := by
  unfold parseTimeStamp
  repeat' first | split | dsimp only
  all_goals try dsimp only
  all_goals first | exact hc | exact runCached_wf _ _ hc

theorem parseNormal_wf (c : Cache) (p : Core) (body : List Nat)
    (hc : WFCache c) : WFCache (parseNormal c p body).2 := by
  unfold parseNormal
  repeat' first | split | dsimp only
  all_goals try dsimp only
  all_goals exact runCached_wf _ _ hc

theorem decodeCoord_wf (c : Cache) (p : Core) (body : List Nat)
    (hc : WFCache c) : WFCache (decodeCoord c p body).2 := by
  unfold decodeCoord
  dsimp only
  split
  · exact parseNormal_wf _ _ _ (runCached_wf _ _ hc)
  · rcases parseCompressed p body with ⟨p3, rest, oe⟩
    cases oe with
    | none =>
      try dsimp only
      exact runCached_wf _ _ hc
    | some e =>
      try dsimp only
      exact runCached_wf _ _ hc

theorem posStep1_wf (c : Cache) (p : Core) (pt body0 : List Nat)
    (hc : WFCache c) : WFCache (posStep1 c p pt body0).2 := by
  unfold posStep1
  repeat' first | split | dsimp only
  all_goals try dsimp only
  all_goals first | exact hc | exact runCached_wf _ _ hc

theorem posFinish_wf (pt : List Nat) (c4 : Cache) (pf : Core)
    (hc4 : WFCache c4) : WFCache (posFinish pt c4 pf).2 := by
  unfold posFinish
  split
  · exact hc4
  · exact hc4

theorem posTail_wf (pt : List Nat) (c4 : Cache) (p3 : Core) (body3 : List Nat)
    (hc4 : WFCache c4) : WFCache (posTail pt c4 p3 body3).2 := by
  unfold posTail
  dsimp only
  rcases p3.Symbol with _ | ⟨s0, srest⟩
  · exact hc4
  · dsimp only
    split
    · rcases parseWeatherData (parseDataExtensions p3 body3).1
          (parseDataExtensions p3 body3).2 with _ | ⟨p4, cm⟩
      · exact hc4
      · exact posFinish_wf _ _ _ hc4
    · exact posFinish_wf _ _ _ hc4

theorem posAfterTs_wf (pt : List Nat) (c2 : Cache) (p2 : Core)
    (body2 : List Nat) (hc2 : WFCache c2) :
    WFCache (posAfterTs pt c2 p2 body2).2 := by
  unfold posAfterTs
  split
  · exact hc2
  · have h4 := decodeCoord_wf c2 p2 body2 hc2
    rcases hd : decodeCoord c2 p2 body2 with ⟨o3, c4⟩
    rw [hd] at h4
    cases o3 with
    | fail p3 e => exact h4
    | panicked e => exact h4
    | ok p3 body3 => exact posTail_wf _ _ _ _ h4

theorem parsePosition_wf (clock : Clock) (c : Cache) (p : Core)
    (pt0 body : List Nat) (hc : WFCache c) :
    WFCache (parsePosition clock c p pt0 body).2 := by
  unfold parsePosition
  dsimp only
  have h1 := posStep1_wf c p ((posNorm pt0 body).1) ((posNorm pt0 body).2) hc
  rcases hs1 : posStep1 c p ((posNorm pt0 body).1) ((posNorm pt0 body).2)
    with ⟨o1, c1⟩
  rw [hs1] at h1
  cases o1 with
  | fail p1 e => exact h1
  | panicked e => exact h1
  | ok p1 body1 =>
    dsimp only
    split
    · have h2 := parseTimeStamp_wf clock c1 p1 ((posNorm pt0 body).1) body1 h1
      rcases hts : parseTimeStamp clock c1 p1 ((posNorm pt0 body).1) body1
        with ⟨o2, c2⟩
      rw [hts] at h2
      cases o2 with
      | fail p2 e => exact h2
      | panicked e => exact h2
      | ok p2 body2 => exact posAfterTs_wf _ _ _ _ h2
    · exact posAfterTs_wf _ _ _ _ h1

theorem posWrap_wf (oc : Out Unit × Cache) (h : WFCache oc.2) :
    WFCache (posWrap oc).2 := by
  obtain ⟨o, c⟩ := oc
  cases o with
  | ok q b => exact h
  | fail q e => exact h
  | panicked e => exact h

theorem parseThirdParty_wf (rec : Cache → List Nat → PRes × Cache)
    (c : Cache) (p : Core) (body : List Nat)
    (hr : WFCache (rec c body).2) :
    WFCache (parseThirdParty rec c p body).2 := by
  unfold parseThirdParty
  dsimp only
  rcases hrr : rec c body with ⟨pr, c1⟩
  rw [hrr] at hr
  cases pr with
  | done q oe =>
    cases oe with
    | none => exact hr
    | some e => exact hr
  | panicked e => exact hr
  | outOfFuel => exact hr

theorem parseBody_wf (rec : Cache → List Nat → PRes × Cache) (clock : Clock)
    (c : Cache) (p : Core) (body : List Nat) (hc : WFCache c)
    (hrec : ∀ (c2 : Cache) (s : List Nat), WFCache c2 → WFCache (rec c2 s).2) :
    WFCache (parseBody rec clock c p body).2 := by
  unfold parseBody
  rcases body with _ | ⟨b0, brest⟩
  · exact hc
  · dsimp only
    by_cases hc1 : (List.drop 1 (b0 :: brest)).length = 0 ∧
        List.take 1 (b0 :: brest) ≠ S ">"
    · rw [if_pos hc1]
      exact hc
    · rw [if_neg hc1]
      by_cases hc2 : isUnsupported (List.take 1 (b0 :: brest)) = true
      · rw [if_pos hc2]
        exact hc
      · rw [if_neg hc2]
        by_cases hc3 : List.take 1 (b0 :: brest) = S "\x7d"
        · rw [if_pos hc3]
          exact parseThirdParty_wf rec c p _ (hrec c _ hc)
        · rw [if_neg hc3]
          by_cases hc4 : List.take 1 (b0 :: brest) = S ","
          · rw [if_pos hc4]
            exact hc
          · rw [if_neg hc4]
            by_cases hc5 : List.take 1 (b0 :: brest) = S "\x7b"
            · rw [if_pos hc5]
              rcases parseUserDefined p (List.drop 1 (b0 :: brest)) with _ | p1
              · exact hc
              · exact hc
            · rw [if_neg hc5]
              by_cases hc6 : List.take 1 (b0 :: brest) = S ">"
              · rw [if_pos hc6]
                exact hc
              · rw [if_neg hc6]
                by_cases hc7 : List.take 1 (b0 :: brest) = S "\x60" ∨
                    List.take 1 (b0 :: brest) = S "â€˜" ∨
                    List.take 1 (b0 :: brest) = S "'"
                · rw [if_pos hc7]
                  rcases parseMicE p p.To (List.drop 1 (b0 :: brest))
                    with ⟨p1, oe⟩
                  cases oe with
                  | none => exact hc
                  | some e => exact hc
                · rw [if_neg hc7]
                  by_cases hc8 : List.take 1 (b0 :: brest) = S ":"
                  · rw [if_pos hc8]
                    exact hc
                  · rw [if_neg hc8]
                    by_cases hc9 : List.take 1 (b0 :: brest) = S "_"
                    · rw [if_pos hc9]
                      rcases parseWeather p (List.drop 1 (b0 :: brest))
                        with _ | ⟨p1, oe⟩
                      · exact hc
                      · cases oe with
                        | none => exact hc
                        | some e => exact hc
                    · rw [if_neg hc9]
                      by_cases hc10 : List.take 1 (b0 :: brest) = S "!" ∨
                          List.take 1 (b0 :: brest) = S "=" ∨
                          List.take 1 (b0 :: brest) = S "/" ∨
                          List.take 1 (b0 :: brest) = S "@" ∨
                          List.take 1 (b0 :: brest) = S ";"
                      · rw [if_pos hc10]
                        exact posWrap_wf _ (parsePosition_wf clock c p _ _ hc)
                      · rw [if_neg hc10]
                        by_cases hc11 :
                            (List.drop 1 (b0 :: brest)).findIdx (· == 33) <
                              (List.drop 1 (b0 :: brest)).length ∧
                            (List.drop 1 (b0 :: brest)).findIdx (· == 33) < 40
                        · rw [if_pos hc11]
                          exact posWrap_wf _
                            (parsePosition_wf clock c p _ _ hc)
                        · rw [if_neg hc11]
                          exact hc

theorem ParseC_wf (clock : Clock) : ∀ (fuel : Nat) (c : Cache)
    (packet : List Nat), WFCache c → WFCache (ParseC clock fuel c packet).2 := by
  intro fuel
  induction fuel with
  | zero => intro c packet hc; exact hc
  | succ f ih =>
    intro c packet hc
    unfold ParseC
    dsimp only
    split
    · exact hc
    · rcases hsp : splitOnce (trimBoth packet [13, 10]) 58 with _ | ⟨head, body⟩
      · exact hc
      · dsimp only
        split
        · exact hc
        · have hh := parseHeader_wf c { Raw := packet } head hc
          rcases hph : parseHeader c { Raw := packet } head with ⟨oh, c1⟩
          rw [hph] at hh
          cases oh with
          | fail p1 e => exact hh
          | panicked e => exact hh
          | ok p1 u =>
            exact parseBody_wf (ParseC clock f) clock c1 p1 body hh
              (fun c2 s hc2 => ih c2 s hc2)

theorem parseHeader_congr (c c' : Cache) (p : Core) (head : List Nat)
    (hc : WFCache c) (hc' : WFCache c') :
    (parseHeader c p head).1 = (parseHeader c' p head).1 := by
  unfold parseHeader
  rcases splitOnce head 62 with _ | ⟨fc, path⟩
  · rfl
  · dsimp only
    rw [runCached_fst _ _ hc, runCached_fst _ _ hc']
    by_cases h1 : ¬(1 ≤ fc.length ∧ fc.length ≤ 9) ∨
        (reRun patFromCall fc).isNone = true
    · rw [if_pos h1, if_pos h1]
    · rw [if_neg h1, if_neg h1]
      by_cases h2 : (splitAll path 44).length < 1
      · rw [if_pos h2, if_pos h2]
      · rw [if_neg h2, if_neg h2]
        by_cases h3 : ((splitAll path 44).getD 0 []).length = 0
        · rw [if_pos h3, if_pos h3]
        · rw [if_neg h3, if_neg h3]
          by_cases h4 : ¬ ValidateCallsign ((splitAll path 44).getD 0 []) = true
          · rw [if_pos h4, if_pos h4]
          · rw [if_neg h4, if_neg h4]
            have hp := pathsCheck_fst
              (((splitAll path 44).drop 1).filter (fun pa => trimSpace pa ≠ []))
              ((runCached c patFromCall fc).2) (runCached_wf _ _ hc)
            have hp' := pathsCheck_fst
              (((splitAll path 44).drop 1).filter (fun pa => trimSpace pa ≠ []))
              ((runCached c' patFromCall fc).2) (runCached_wf _ _ hc')
            rcases hpk : pathsCheck (runCached c patFromCall fc).2
                (((splitAll path 44).drop 1).filter (fun pa => trimSpace pa ≠ []))
              with ⟨b, c2⟩
            rcases hpk' : pathsCheck (runCached c' patFromCall fc).2
                (((splitAll path 44).drop 1).filter (fun pa => trimSpace pa ≠ []))
              with ⟨b', c2'⟩
            rw [hpk] at hp
            rw [hpk'] at hp'
            dsimp only at hp hp'
            rw [show b' = b from hp'.trans hp.symm]
            cases b with
            | false => rfl
            | true => rfl

theorem parseTimeStamp_congr (clock : Clock) (c c' : Cache) (p : Core)
    (pt body : List Nat) (hc : WFCache c) (hc' : WFCache c') :
    (parseTimeStamp clock c p pt body).1 =
      (parseTimeStamp clock c' p pt body).1 := by
  unfold parseTimeStamp
  by_cases hl : body.length < 7
  · rw [if_pos hl, if_pos hl]
  · rw [if_neg hl, if_neg hl]
    dsimp only
    rw [runCached_fst _ _ hc, runCached_fst _ _ hc']
    rcases reRun patTs (body.take 7) with _ | groups
    · rfl
    · dsimp only
      by_cases hcond : ¬(pt = S ">" ∧ groups.getD 3 [] ≠ S "z")
      · rw [if_pos hcond, if_pos hcond]
      · rw [if_neg hcond, if_neg hcond]

theorem parseNormal_congr (c c' : Cache) (p : Core) (body : List Nat)
    (hc : WFCache c) (hc' : WFCache c') :
    (parseNormal c p body).1 = (parseNormal c' p body).1 := by
  unfold parseNormal
  dsimp only
  rw [runCached_fst _ _ hc, runCached_fst _ _ hc']
  rcases reRun patNormal body with _ | g
  · rfl
  · rfl

theorem decodeCoord_congr (c c' : Cache) (p : Core) (body : List Nat)
    (hc : WFCache c) (hc' : WFCache c') :
    (decodeCoord c p body).1 = (decodeCoord c' p body).1 := by
  unfold decodeCoord
  dsimp only
  rw [runCached_fst _ _ hc, runCached_fst _ _ hc']
  by_cases hm : (reRun patCoarse body).isSome = true
  · rw [if_pos hm, if_pos hm]
    exact parseNormal_congr _ _ p body (runCached_wf _ _ hc) (runCached_wf _ _ hc')
  · rw [if_neg hm, if_neg hm]
    rcases parseCompressed p body with ⟨p3, rest, oe⟩
    cases oe with
    | none => rfl
    | some e => rfl

theorem posStep1_congr (c c' : Cache) (p : Core) (pt body0 : List Nat)
    (hc : WFCache c) (hc' : WFCache c') :
    (posStep1 c p pt body0).1 = (posStep1 c' p pt body0).1 := by
  unfold posStep1
  by_cases hpt : pt = S ";"
  · rw [if_pos hpt, if_pos hpt]
    dsimp only
    rw [runCached_fst _ _ hc, runCached_fst _ _ hc']
    rcases reRun patObjHead body0 with _ | g
    · rfl
    · rfl
  · rw [if_neg hpt, if_neg hpt]

theorem posFinish_fst (pt : List Nat) (c4 c4' : Cache) (pf : Core) :
    (posFinish pt c4 pf).1 = (posFinish pt c4' pf).1 := by
  unfold posFinish
  by_cases hp : pt = S ";"
  · rw [if_pos hp, if_pos hp]
  · rw [if_neg hp, if_neg hp]

theorem posTail_fst (pt : List Nat) (c4 c4' : Cache) (p3 : Core)
    (body3 : List Nat) :
    (posTail pt c4 p3 body3).1 = (posTail pt c4' p3 body3).1 := by
  unfold posTail
  dsimp only
  rcases p3.Symbol with _ | ⟨s0, srest⟩
  · rfl
  · dsimp only
    by_cases hs : s0 = S "_"
    · rw [if_pos hs, if_pos hs]
      rcases parseWeatherData (parseDataExtensions p3 body3).1
          (parseDataExtensions p3 body3).2 with _ | ⟨p4, cm⟩
      · rfl
      · exact posFinish_fst pt c4 c4' p4
    · rw [if_neg hs, if_neg hs]
      exact posFinish_fst pt c4 c4' (parseComment p3 body3).1

theorem posAfterTs_congr (pt : List Nat) (c2 c2' : Cache) (p2 : Core)
    (body2 : List Nat) (hc2 : WFCache c2) (hc2' : WFCache c2') :
    (posAfterTs pt c2 p2 body2).1 = (posAfterTs pt c2' p2 body2).1 := by
  unfold posAfterTs
  by_cases hcond : body2.length = 0 ∧ p2.Timestamp ≠ 0
  · rw [if_pos hcond, if_pos hcond]
  · rw [if_neg hcond, if_neg hcond]
    have hd := decodeCoord_congr c2 c2' p2 body2 hc2 hc2'
    rcases hd1 : decodeCoord c2 p2 body2 with ⟨o3, c4⟩
    rcases hd2 : decodeCoord c2' p2 body2 with ⟨o3', c4'⟩
    rw [hd1, hd2] at hd
    dsimp only at hd
    subst hd
    cases o3 with
    | fail p3 e => rfl
    | panicked e => rfl
    | ok p3 body3 => exact posTail_fst pt c4 c4' p3 body3

theorem parsePosition_congr (clock : Clock) (c c' : Cache) (p : Core)
    (pt0 body : List Nat) (hc : WFCache c) (hc' : WFCache c') :
    (parsePosition clock c p pt0 body).1 =
      (parsePosition clock c' p pt0 body).1 := by
  unfold parsePosition
  dsimp only
  have hs := posStep1_congr c c' p ((posNorm pt0 body).1) ((posNorm pt0 body).2)
    hc hc'
  have hw1 := posStep1_wf c p ((posNorm pt0 body).1) ((posNorm pt0 body).2) hc
  have hw2 := posStep1_wf c' p ((posNorm pt0 body).1) ((posNorm pt0 body).2) hc'
  rcases h1 : posStep1 c p ((posNorm pt0 body).1) ((posNorm pt0 body).2)
    with ⟨o1, c1⟩
  rcases h2 : posStep1 c' p ((posNorm pt0 body).1) ((posNorm pt0 body).2)
    with ⟨o1', c1'⟩
  rw [h1] at hw1
  rw [h2] at hw2
  rw [h1, h2] at hs
  dsimp only at hs
  subst hs
  cases o1 with
  | fail p1 e => rfl
  | panicked e => rfl
  | ok p1 body1 =>
    dsimp only
    by_cases hif : isInfixL ((posNorm pt0 body).1) (S "/@;") = true
    · rw [if_pos hif, if_pos hif]
      have ht := parseTimeStamp_congr clock c1 c1' p1 ((posNorm pt0 body).1)
        body1 hw1 hw2
      have htw1 := parseTimeStamp_wf clock c1 p1 ((posNorm pt0 body).1) body1 hw1
      have htw2 := parseTimeStamp_wf clock c1' p1 ((posNorm pt0 body).1) body1 hw2
      rcases ht1 : parseTimeStamp clock c1 p1 ((posNorm pt0 body).1) body1
        with ⟨o2, c2⟩
      rcases ht2 : parseTimeStamp clock c1' p1 ((posNorm pt0 body).1) body1
        with ⟨o2', c2'⟩
      rw [ht1] at htw1
      rw [ht2] at htw2
      rw [ht1, ht2] at ht
      dsimp only at ht
      subst ht
      cases o2 with
      | fail p2 e => rfl
      | panicked e => rfl
      | ok p2 body2 => exact posAfterTs_congr _ _ _ _ _ htw1 htw2
    · rw [if_neg hif, if_neg hif]
      exact posAfterTs_congr _ _ _ _ _ hw1 hw2

theorem posWrap_fst (oc oc' : Out Unit × Cache) (h : oc.1 = oc'.1) :
    (posWrap oc).1 = (posWrap oc').1 := by
  obtain ⟨o, c⟩ := oc
  obtain ⟨o', c'⟩ := oc'
  dsimp only at h
  subst h
  cases o with
  | ok q b => rfl
  | fail q e => rfl
  | panicked e => rfl

theorem parseThirdParty_congr (rec : Cache → List Nat → PRes × Cache)
    (c c' : Cache) (p : Core) (body : List Nat)
    (hr : (rec c body).1 = (rec c' body).1) :
    (parseThirdParty rec c p body).1 = (parseThirdParty rec c' p body).1 := by
  unfold parseThirdParty
  dsimp only
  rcases hr1 : rec c body with ⟨r, c1⟩
  rcases hr2 : rec c' body with ⟨r', c1'⟩
  rw [hr1, hr2] at hr
  dsimp only at hr
  subst hr
  cases r with
  | done q oe =>
    cases oe with
    | none => rfl
    | some e => rfl
  | panicked e => rfl
  | outOfFuel => rfl

theorem parseBody_congr (rec : Cache → List Nat → PRes × Cache) (clock : Clock)
    (c c' : Cache) (p : Core) (body : List Nat)
    (hc : WFCache c) (hc' : WFCache c')
    (hrec : ∀ s : List Nat, (rec c s).1 = (rec c' s).1) :
    (parseBody rec clock c p body).1 = (parseBody rec clock c' p body).1 := by
  unfold parseBody
  rcases body with _ | ⟨b0, brest⟩
  · rfl
  · dsimp only
    by_cases hc1 : (List.drop 1 (b0 :: brest)).length = 0 ∧
        List.take 1 (b0 :: brest) ≠ S ">"
    · rw [if_pos hc1, if_pos hc1]
    · rw [if_neg hc1, if_neg hc1]
      by_cases hc2 : isUnsupported (List.take 1 (b0 :: brest)) = true
      · rw [if_pos hc2, if_pos hc2]
      · rw [if_neg hc2, if_neg hc2]
        by_cases hc3 : List.take 1 (b0 :: brest) = S "\x7d"
        · rw [if_pos hc3, if_pos hc3]
          exact parseThirdParty_congr rec c c' p _ (hrec _)
        · rw [if_neg hc3, if_neg hc3]
          by_cases hc4 : List.take 1 (b0 :: brest) = S ","
          · rw [if_pos hc4, if_pos hc4]
          · rw [if_neg hc4, if_neg hc4]
            by_cases hc5 : List.take 1 (b0 :: brest) = S "\x7b"
            · rw [if_pos hc5, if_pos hc5]
              rcases parseUserDefined p (List.drop 1 (b0 :: brest)) with _ | p1
              · rfl
              · rfl
            · rw [if_neg hc5, if_neg hc5]
              by_cases hc6 : List.take 1 (b0 :: brest) = S ">"
              · rw [if_pos hc6, if_pos hc6]
              · rw [if_neg hc6, if_neg hc6]
                by_cases hc7 : List.take 1 (b0 :: brest) = S "\x60" ∨
                    List.take 1 (b0 :: brest) = S "â€˜" ∨
                    List.take 1 (b0 :: brest) = S "'"
                · rw [if_pos hc7, if_pos hc7]
                  rcases parseMicE p p.To (List.drop 1 (b0 :: brest))
                    with ⟨p1, oe⟩
                  cases oe with
                  | none => rfl
                  | some e => rfl
                · rw [if_neg hc7, if_neg hc7]
                  by_cases hc8 : List.take 1 (b0 :: brest) = S ":"
                  · rw [if_pos hc8, if_pos hc8]
                  · rw [if_neg hc8, if_neg hc8]
                    by_cases hc9 : List.take 1 (b0 :: brest) = S "_"
                    · rw [if_pos hc9, if_pos hc9]
                      rcases parseWeather p (List.drop 1 (b0 :: brest))
                        with _ | ⟨p1, oe⟩
                      · rfl
                      · cases oe with
                        | none => rfl
                        | some e => rfl
                    · rw [if_neg hc9, if_neg hc9]
                      by_cases hc10 : List.take 1 (b0 :: brest) = S "!" ∨
                          List.take 1 (b0 :: brest) = S "=" ∨
                          List.take 1 (b0 :: brest) = S "/" ∨
                          List.take 1 (b0 :: brest) = S "@" ∨
                          List.take 1 (b0 :: brest) = S ";"
                      · rw [if_pos hc10, if_pos hc10]
                        exact posWrap_fst _ _
                          (parsePosition_congr clock c c' p _ _ hc hc')
                      · rw [if_neg hc10, if_neg hc10]
                        by_cases hc11 :
                            (List.drop 1 (b0 :: brest)).findIdx (· == 33) <
                              (List.drop 1 (b0 :: brest)).length ∧
                            (List.drop 1 (b0 :: brest)).findIdx (· == 33) < 40
                        · rw [if_pos hc11, if_pos hc11]
                          exact posWrap_fst _ _
                            (parsePosition_congr clock c c' p _ _ hc hc')
                        · rw [if_neg hc11, if_neg hc11]

theorem ParseC_congr (clock : Clock) : ∀ (fuel : Nat) (c c' : Cache)
    (packet : List Nat), WFCache c → WFCache c' →
    (ParseC clock fuel c packet).1 = (ParseC clock fuel c' packet).1 := by
  intro fuel
  induction fuel with
  | zero => intro c c' packet hc hc'; rfl
  | succ f ih =>
    intro c c' packet hc hc'
    unfold ParseC
    dsimp only
    by_cases hp0 : packet = []
    · rw [if_pos hp0, if_pos hp0]
    · rw [if_neg hp0, if_neg hp0]
      rcases splitOnce (trimBoth packet [13, 10]) 58 with _ | ⟨head, body⟩
      · rfl
      · dsimp only
        by_cases hhb : head.length = 0 ∨ body.length = 0
        · rw [if_pos hhb, if_pos hhb]
        · rw [if_neg hhb, if_neg hhb]
          have hh := parseHeader_congr c c' { Raw := packet } head hc hc'
          have hw1 := parseHeader_wf c { Raw := packet } head hc
          have hw2 := parseHeader_wf c' { Raw := packet } head hc'
          rcases h1 : parseHeader c { Raw := packet } head with ⟨oh, c1⟩
          rcases h2 : parseHeader c' { Raw := packet } head with ⟨oh', c1'⟩
          rw [h1] at hw1
          rw [h2] at hw2
          rw [h1, h2] at hh
          dsimp only at hh
          subst hh
          cases oh with
          | fail p1 e => rfl
          | panicked e => rfl
          | ok p1 u =>
            exact parseBody_congr (ParseC clock f) clock c1 c1' p1 body hw1 hw2
              (fun s => ih c1 c1' s hw1 hw2)

/-- C9: decoding the same raw line twice yields structurally equal
results and the same error outcome.  The only hidden mutable state is the
compiled-pattern cache, and a second run — starting from whatever cache
the first run left behind — returns exactly the value of a fresh run:
the cache only memoizes pattern compilation and never changes behavior. -/
theorem parse_deterministic (clock : Clock) (fuel : Nat) (packet : List Nat) :
    (ParseC clock fuel ((ParseC clock fuel [] packet).2) packet).1 =
      Parse clock fuel packet := by
  have h0 : WFCache ([] : Cache) := fun kv h => absurd h (List.not_mem_nil kv)
  exact ParseC_congr clock fuel _ [] packet (ParseC_wf clock fuel [] packet h0) h0

theorem splitOnce_append (sep : Nat) (head rest : List Nat)
    (h : ¬ sep ∈ head) :
    splitOnce (head ++ sep :: rest) sep = some (head, rest) := by
  induction head with
  | nil => simp [splitOnce]
  | cons a tl ih =>
    rw [List.cons_append]
    unfold splitOnce
    rw [if_neg (fun hq => h (by rw [hq]; exact List.mem_cons_self sep tl))]
    rw [ih (fun hm => h (List.mem_cons_of_mem a hm))]

theorem parse_done_ne_nil (clock : Clock) (fuel : Nat) (q : Parsed)
    (h : Parse clock fuel [] = PRes.done q none) : False := by
  cases fuel with
  | zero => simp [Parse, ParseC] at h
  | succ f => simp [Parse, ParseC] at h

/-- C8: a packet `head ++ ":}" ++ inner` — with a valid non-empty header
containing no `:`, no CR/LF trimming at the edges, and an inner text that
`Parse` decodes successfully at the inner fuel — decodes successfully
with format `thirdparty` and a sub-packet equal to the result of parsing
the inner text directly (the outer run hands the third-party recursion
its current pattern cache, and by cache congruence that run returns
exactly the fresh `Parse` of the inner text). -/
theorem parse_thirdparty (clock : Clock) (fuel : Nat) (head inner : List Nat)
    (q : Parsed)
    (hne : head ≠ [])
    (htrim : trimBoth (head ++ 58 :: 125 :: inner) [13, 10] =
      head ++ 58 :: 125 :: inner)
    (hcolon : ¬ (58 : Nat) ∈ head)
    (hhdr : ((parseHeader []
        { Raw := head ++ 58 :: 125 :: inner } head).1).isFailB = false ∧
      ((parseHeader []
        { Raw := head ++ 58 :: 125 :: inner } head).1).panicMsg = none)
    (hinner : Parse clock fuel inner = PRes.done q none) :
    ∃ pe : Parsed,
      Parse clock (fuel + 1) (head ++ 58 :: 125 :: inner) = PRes.done pe none ∧
      pe.core.Format = S "thirdparty" ∧ pe.subPacket = some q := by
  have h0 : WFCache ([] : Cache) := fun kv h => absurd h (List.not_mem_nil kv)
  have hinner_ne : inner ≠ [] := by
    intro he
    exact parse_done_ne_nil clock fuel q (he ▸ hinner)
  unfold Parse
  unfold ParseC
  dsimp only
  rw [if_neg (by simp [hne])]
  rw [htrim]
  rw [splitOnce_append 58 head (125 :: inner) hcolon]
  dsimp only
  rw [if_neg (by
    rintro (h | h)
    · exact hne (List.length_eq_zero.mp h)
    · simp at h)]
  rcases hph : parseHeader [] { Raw := head ++ 58 :: 125 :: inner } head
    with ⟨oh, c1⟩
  have hw1 := parseHeader_wf [] { Raw := head ++ 58 :: 125 :: inner } head h0
  rw [hph] at hw1
  obtain ⟨hf, hpm⟩ := hhdr
  rw [hph] at hf hpm
  dsimp only at hf hpm
  cases oh with
  | fail p1 e => exact absurd hf (by simp [Out.isFailB])
  | panicked e => exact absurd hpm (by simp [Out.panicMsg])
  | ok p1 u =>
    dsimp only
    unfold parseBody
    dsimp only
    simp only [List.take_succ_cons, List.take_zero, List.drop_succ_cons,
      List.drop_zero]
    rw [if_neg (fun h => hinner_ne (List.length_eq_zero.mp h.1))]
    rw [if_neg (by decide)]
    rw [if_pos (show ([125] : List Nat) = S "\x7d" by decide)]
    unfold parseThirdParty
    dsimp only
    have hcong := ParseC_congr clock fuel c1 [] inner hw1 h0
    rcases hr : ParseC clock fuel c1 inner with ⟨r, c2⟩
    rw [hr] at hcong
    unfold Parse at hinner
    rw [hinner] at hcong
    dsimp only at hcong
    subst hcong
    exact ⟨Parsed.mk { p1 with Format := S "thirdparty" } (some q),
      rfl, rfl, rfl⟩

theorem parse_thirdparty_witness :
    (S "A>B" : List Nat) ≠ [] ∧
    trimBoth (S "A>B" ++ 58 :: 125 :: S "C>D:>hi") [13, 10] =
      S "A>B" ++ 58 :: 125 :: S "C>D:>hi" ∧
    ¬ (58 : Nat) ∈ S "A>B" ∧
    (((parseHeader []
        { Raw := S "A>B" ++ 58 :: 125 :: S "C>D:>hi" } (S "A>B")).1).isFailB =
      false ∧
     ((parseHeader []
        { Raw := S "A>B" ++ 58 :: 125 :: S "C>D:>hi" } (S "A>B")).1).panicMsg =
      none) ∧
    Parse ⟨2026, 10, 5⟩ 1 (S "C>D:>hi") =
      PRes.done (Parsed.mk (parseStatus
        { Raw := S "C>D:>hi", From := S "C", To := S "D", Path := [] }
        (S "hi")) none) none ∧
    ∃ pe : Parsed,
      Parse ⟨2026, 10, 5⟩ 2 (S "A>B" ++ 58 :: 125 :: S "C>D:>hi") =
        PRes.done pe none ∧
      pe.core.Format = S "thirdparty" ∧
      pe.subPacket = some (Parsed.mk (parseStatus
        { Raw := S "C>D:>hi", From := S "C", To := S "D", Path := [] }
        (S "hi")) none) :=
  ⟨by decide, by decide, by decide, ⟨by decide, by decide⟩, rfl,
   parse_thirdparty ⟨2026, 10, 5⟩ 1 (S "A>B") (S "C>D:>hi")
     (Parsed.mk (parseStatus
       { Raw := S "C>D:>hi", From := S "C", To := S "D", Path := [] }
       (S "hi")) none)
     (by decide) (by decide) (by decide) ⟨by decide, by decide⟩ rfl⟩

end Aprs
